import Mathlib

set_option maxHeartbeats 1000000

/-!
Verification development for the crypto-oracle analytic pipeline.

Each Go function relevant to the verified properties is shallowly embedded
as an executable Lean definition over rational numbers (modelling Go
float64 arithmetic) and lists (modelling Go slices and maps).  Database,
cache and gateway reads are passed in as explicit function parameters,
since the Go code receives them through injected interfaces.
-/

namespace CryptoOracle

/-! ## Memory-of-Trust graph (internal/memory/memory_of_trust.go) -/

/-- Ledger entry recorded against the trust graph.  Only the fields read by
the graph-update code are modelled. -/
structure WalletInteraction where
  txHash : String
  walletAddress : String
  tokenAddress : String
  deriving DecidableEq

/-- WalletNode of the in-memory TrustGraph. The LastUpdated wall-clock field
is omitted from the model. -/
structure WalletNode where
  address : String
  trustScore : ℚ
  interactions : List String
  deriving DecidableEq

/-- TokenNode of the in-memory TrustGraph. -/
structure TokenNode where
  address : String
  wallets : List String
  interactions : List String
  deriving DecidableEq

/-- The in-memory trust graph: two maps keyed by address. -/
structure TrustGraph where
  wallets : String → Option WalletNode
  tokens : String → Option TokenNode

/-- Fresh graph as built by NewTrustNetwork. -/
def emptyGraph : TrustGraph := ⟨fun _ => none, fun _ => none⟩

/-- Interaction id string, built as in the Go source with
fmt.Sprintf of tx hash, wallet address and token address. -/
def mkInteractionId (i : WalletInteraction) : String :=
  i.txHash ++ ":" ++ i.walletAddress ++ ":" ++ i.tokenAddress

/-- Default trust score used whenever the database has no row. -/
def defaultTrustScore : ℚ := 50

/-- Wallet node looked up (or freshly created with the database score,
defaulting to 50 on error) before the interaction is appended.  dbScore
models db.GetWalletTrustScore (none = error). -/
def baseWalletNode (dbScore : String → Option ℚ) (g : TrustGraph)
    (i : WalletInteraction) : WalletNode :=
  match g.wallets i.walletAddress with
  | some w => w
  | none => ⟨i.walletAddress, (dbScore i.walletAddress).getD defaultTrustScore, []⟩

/-- Token node looked up (or freshly created empty) before the interaction
is appended. -/
def baseTokenNode (g : TrustGraph) (i : WalletInteraction) : TokenNode :=
  match g.tokens i.tokenAddress with
  | some t => t
  | none => ⟨i.tokenAddress, [], []⟩

/-- Updated wallet node: the interaction id is appended unconditionally. -/
def updWalletNode (dbScore : String → Option ℚ) (g : TrustGraph)
    (i : WalletInteraction) : WalletNode :=
  { baseWalletNode dbScore g i with
    interactions := (baseWalletNode dbScore g i).interactions ++ [mkInteractionId i] }

/-- Updated token node: the wallet is added only if absent, the interaction
id is appended unconditionally. -/
def updTokenNode (g : TrustGraph) (i : WalletInteraction) : TokenNode :=
  { baseTokenNode g i with
    wallets :=
      if i.walletAddress ∈ (baseTokenNode g i).wallets then (baseTokenNode g i).wallets
      else (baseTokenNode g i).wallets ++ [i.walletAddress],
    interactions := (baseTokenNode g i).interactions ++ [mkInteractionId i] }

/-- Shared graph-update core of RecordWalletInteraction and loadTrustGraph:
create missing nodes, append the interaction id to both sides, and add the
wallet to the token wallet list only if absent. -/
def graphAddInteraction (dbScore : String → Option ℚ) (g : TrustGraph)
    (i : WalletInteraction) : TrustGraph :=
  { wallets := fun a =>
      if a = i.walletAddress then some (updWalletNode dbScore g i) else g.wallets a,
    tokens := fun a =>
      if a = i.tokenAddress then some (updTokenNode g i) else g.tokens a }

/-- RecordWalletInteraction: rejects empty addresses (returning an error and
leaving the graph untouched), otherwise persists and applies the in-memory
update.  The asynchronous trust-score recomputation goroutine is outside
this model; it never touches the interaction or wallet lists. -/
def recordWalletInteraction (dbScore : String → Option ℚ) (g : TrustGraph)
    (i : WalletInteraction) : TrustGraph :=
  if i.walletAddress = "" ∨ i.tokenAddress = "" then g
  else graphAddInteraction dbScore g i

/-- Persisted per-wallet trust score row, as returned by
db.GetAllWalletTrustScores. -/
structure WalletTrustScoreRow where
  address : String
  trustScore : ℚ
  deriving DecidableEq

/-- First phase of loadTrustGraph: hydrate WalletNodes from persisted trust
scores, with empty interaction lists. -/
def loadWalletScores (rows : List WalletTrustScoreRow) (g : TrustGraph) : TrustGraph :=
  rows.foldl
    (fun acc r =>
      { acc with
        wallets := fun a => if a = r.address then some ⟨r.address, r.trustScore, []⟩
                            else acc.wallets a })
    g

/-- loadTrustGraph: hydrate wallet nodes from persisted scores, then replay
the recent interactions through the shared graph-update core. -/
def loadTrustGraph (dbScore : String → Option ℚ) (rows : List WalletTrustScoreRow)
    (recent : List WalletInteraction) (g : TrustGraph) : TrustGraph :=
  recent.foldl (graphAddInteraction dbScore) (loadWalletScores rows g)

/-- Reachable graph states: the Start-time load applied to the fresh graph,
followed by any sequence of RecordWalletInteraction calls (loadTrustGraph is
private and invoked only from Start, before any recording). -/
def runTrustNetwork (dbScore : String → Option ℚ) (rows : List WalletTrustScoreRow)
    (recent : List WalletInteraction) (records : List WalletInteraction) : TrustGraph :=
  records.foldl (recordWalletInteraction dbScore) (loadTrustGraph dbScore rows recent emptyGraph)

/-- Structural well-formedness of the trust graph: interaction ids are
cross-referenced between wallet and token nodes, and token wallet lists are
duplicate-free. -/
def GraphWellFormed (g : TrustGraph) : Prop :=
  (∀ a w, g.wallets a = some w → ∀ iid ∈ w.interactions,
      ∃ b t, g.tokens b = some t ∧ iid ∈ t.interactions) ∧
  (∀ a t, g.tokens a = some t → ∀ iid ∈ t.interactions,
      ∃ b w, g.wallets b = some w ∧ iid ∈ w.interactions) ∧
  (∀ a t, g.tokens a = some t → t.wallets.Nodup)

/-! ## GetTokenTrustMetrics (internal/memory/memory_of_trust.go, cache-miss path) -/

/-- Result record of GetTokenTrustMetrics (pkg/models TokenTrustMetrics).
The trust-score distribution map is modelled as a total function from
category names to counts, absent keys giving 0 exactly as a Go map does. -/
structure TokenTrustMetrics where
  tokenAddress : String
  activeWallets : Nat
  trustedWallets : Nat
  avgTrustScore : ℚ
  trustScoreDistribution : String → Nat
  earlyTrustRatio : ℚ
  smartMoneyCount : Nat
  smartMoneyRatio : ℚ
  smartMoneyActivity : ℚ

/-- Trust band of a score, as assigned by the switch statement in
GetTokenTrustMetrics. -/
def trustCategory (s : ℚ) : String :=
  if 90 ≤ s then "excellent"
  else if 75 ≤ s then "high"
  else if 60 ≤ s then "good"
  else if 40 ≤ s then "average"
  else if 25 ≤ s then "low"
  else "poor"

/-- Loop accumulator of GetTokenTrustMetrics: running total trust score,
trusted count and band distribution. -/
structure TrustMetricsAcc where
  totalTrustScore : ℚ
  trustedCount : Nat
  dist : String → Nat

/-- One iteration of the wallet-analysis loop in GetTokenTrustMetrics:
the three bands at or above 60 also bump the trusted counter. -/
def trustMetricsStep (score : String → ℚ) (acc : TrustMetricsAcc) (w : String) :
    TrustMetricsAcc :=
  let s := score w
  let cat := trustCategory s
  let trusted := if 90 ≤ s then acc.trustedCount + 1
    else if 75 ≤ s then acc.trustedCount + 1
    else if 60 ≤ s then acc.trustedCount + 1
    else acc.trustedCount
  { totalTrustScore := acc.totalTrustScore + s,
    trustedCount := trusted,
    dist := fun k => if k = cat then acc.dist k + 1 else acc.dist k }

/-- GetTokenTrustMetrics on a cache miss.  walletsOfToken is the wallet
list of the token node in the graph (none when the token is absent, in
which case empty metrics are returned); score models GetWalletTrustScore,
which always succeeds; earlyWallets models getEarlyWallets (unique wallets
of the first 50 early transactions).  The SmartMoney fields of the result
are never assigned by the Go function and keep their zero values. -/
def getTokenTrustMetrics (tokenAddress : String) (walletsOfToken : Option (List String))
    (score : String → ℚ) (earlyWallets : List String) : TokenTrustMetrics :=
  match walletsOfToken with
  | none =>
    ⟨tokenAddress, 0, 0, 0, fun _ => 0, 0, 0, 0, 0⟩
  | some wallets =>
    let acc := wallets.foldl (trustMetricsStep score) ⟨0, 0, fun _ => 0⟩
    let avg := if 0 < wallets.length then acc.totalTrustScore / wallets.length else 0
    let trusted := if 0 < wallets.length then acc.trustedCount else 0
    let earlyRatio :=
      if earlyWallets.length ≠ 0 then
        (earlyWallets.countP (fun w => 60 ≤ score w) : ℚ) / earlyWallets.length
      else 0
    ⟨tokenAddress, wallets.length, trusted, avg, acc.dist, earlyRatio, 0, 0, 0⟩

/-! ## GetTokenInfluencers compute-on-miss path
(calculateTokenInfluencers, internal/memory/memory_of_trust.go) -/

/-- Row of db.GetTokenTraders (pkg/models TokenTrader). -/
structure TokenTrader where
  walletAddress : String
  relativeVolume : ℚ
  earlyInvestor : ℚ
  transactionCount : Nat
  deriving DecidableEq

/-- Influence record (pkg/models WalletInfluence). -/
structure WalletInfluence where
  walletAddress : String
  tokenAddress : String
  influenceScore : ℚ
  volumeImpact : ℚ
  timingImpact : ℚ
  priceImpact : ℚ
  transactionCount : Nat
  deriving DecidableEq

/-- Influence entry built for a single trader by calculateTokenInfluencers:
40% relative volume, 30% early-investor timing, 15% price-impact entropy,
15% trust score, the first three scaled to 0-100. -/
def influenceOfTrader (tokenAddress : String) (priceImpact : String → Option ℚ)
    (trust : String → Option ℚ) (tr : TokenTrader) : WalletInfluence :=
  let entropy := (priceImpact tr.walletAddress).getD 0
  let trustScore := (trust tr.walletAddress).getD 50
  let volumeScore := tr.relativeVolume * 100
  let timingScore := tr.earlyInvestor * 100
  let entropyScore := entropy * 100
  let influenceScore :=
    volumeScore * (40 / 100) + timingScore * (30 / 100) +
      entropyScore * (15 / 100) + trustScore * (15 / 100)
  ⟨tr.walletAddress, tokenAddress, influenceScore, volumeScore, timingScore,
    entropyScore, tr.transactionCount⟩

/-- Insert into a list kept in descending key order (model of the final
sort.Slice by decreasing influence score). -/
def insertDescBy {α : Type} (key : α → ℚ) (x : α) : List α → List α
  | [] => [x]
  | y :: ys => if key y < key x then x :: y :: ys else y :: insertDescBy key x ys

/-- Sort a list in descending key order. -/
def sortDescBy {α : Type} (key : α → ℚ) : List α → List α
  | [] => []
  | x :: xs => insertDescBy key x (sortDescBy key xs)

/-- calculateTokenInfluencers (lower-case, the function invoked by
GetTokenInfluencers when both cache and database miss): build one influence
entry per trader, sort by descending influence score and truncate to the
limit.  priceImpact models db.GetWalletPriceImpact (none = error, default
0); trust models GetWalletTrustScore (none = error, default 50). -/
def calculateTokenInfluencers (tokenAddress : String) (traders : List TokenTrader)
    (priceImpact : String → Option ℚ) (trust : String → Option ℚ) (limit : Nat) :
    List WalletInfluence :=
  let influences := traders.map (influenceOfTrader tokenAddress priceImpact trust)
  (sortDescBy (fun e => e.influenceScore) influences).take limit

/-! ## Token Engine (internal/token/token.go) -/

/-- Token metadata fields read by the X-Score computation. -/
structure Token where
  address : String
  holderCount : Nat
  website : String
  twitter : String
  telegram : String
  deriving DecidableEq

/-- Token metrics fields read by the X-Score computation. -/
structure TokenMetrics where
  holderCount : Nat
  volume1h : ℚ
  marketCap : ℚ
  price : ℚ
  priceChange1h : ℚ
  buyCount1h : Nat
  sellCount1h : Nat
  deriving DecidableEq

/-- Per-wallet detail of a wallet analysis (pkg/models WalletDetail),
restricted to the fields the Token Engine reads. -/
structure WalletDetail where
  address : String
  trustScore : ℚ
  categories : List String
  deriving DecidableEq

/-- Wallet analysis fields read by the X-Score and anti-dump computation
(pkg/models WalletAnalysis). -/
structure WalletAnalysis where
  totalWallets : Nat
  freshCount : Nat
  botCount : Nat
  bluechipCount : Nat
  buySellRatio : ℚ
  smartMoneyRatio : ℚ
  earlyTrustedRatio : ℚ
  smartMoneyActivity : ℚ
  sniperCount : Nat
  walletDetails : List WalletDetail
  deriving DecidableEq

/-- Default wallet analysis substituted by CalculateXScore when the caller
passes nil: only TotalWallets is populated, from the metrics holder count. -/
def defaultWalletAnalysis (metrics : TokenMetrics) : WalletAnalysis :=
  ⟨metrics.holderCount, 0, 0, 0, 0, 0, 0, 0, 0, []⟩

/-- Trade record (pkg/models TokenTrade) restricted to the fields the
anti-dump detector reads.  Timestamps are in seconds. -/
structure TokenTrade where
  walletAddress : String
  tradeType : String
  timestamp : ℚ
  totalValue : ℚ
  deriving DecidableEq

/-- Dump cluster statistics (pkg/models DumpCluster). -/
structure DumpCluster where
  timestampStart : ℚ
  timestampEnd : ℚ
  durationSeconds : ℚ
  transactionCount : Nat
  uniqueWallets : Nat
  smartWallets : Nat
  totalVolume : ℚ
  severity : ℚ
  deriving DecidableEq

/-- Anti-dump analysis result (pkg/models AntiDumpResult). -/
structure AntiDumpResult where
  detected : Bool
  severity : ℚ
  clusters : List DumpCluster
  deriving DecidableEq

/-- Clustering loop of checkAntiDumpPattern.  cs holds the completed
clusters, cur the current cluster in reverse order (its head is the most
recently appended sell, i.e. the one the next time gap is measured
against).  A gap of at most 300 seconds extends the current cluster;
otherwise the current cluster is kept when it has at least 3 sells.
The Go code processes the sell list in the order received and, despite the
comment announcing a sort, never sorts it. -/
def dumpClustersAux (cs : List (List TokenTrade)) (cur : List TokenTrade) :
    List TokenTrade → List (List TokenTrade)
  | [] => if 3 ≤ cur.length then cs ++ [cur.reverse] else cs
  | tx :: rest =>
    match cur with
    | [] => dumpClustersAux cs [tx] rest
    | last :: _ =>
      if tx.timestamp - last.timestamp ≤ 300 then
        dumpClustersAux cs (tx :: cur) rest
      else if 3 ≤ cur.length then
        dumpClustersAux (cs ++ [cur.reverse]) [tx] rest
      else
        dumpClustersAux cs [tx] rest

/-- Temporal clusters of consecutive sells with inter-sell gap up to
300 seconds, keeping clusters of at least 3 sells. -/
def dumpClusters : List TokenTrade → List (List TokenTrade)
  | [] => []
  | tx :: rest => dumpClustersAux [] [tx] rest

/-- Placeholder trade used for the head/last accesses on clusters, which
are always non-empty. -/
def defaultTrade : TokenTrade := ⟨"", "", 0, 0⟩

/-- Addresses tagged smart in the wallet analysis, as collected by the
smart-seller overlap pass of checkAntiDumpPattern. -/
def smartWalletsOf (wa : Option WalletAnalysis) : List String :=
  match wa with
  | none => []
  | some wa => (wa.walletDetails.filter (fun d => "smart" ∈ d.categories)).map
      (fun d => d.address)

/-- Per-cluster statistics and severity of checkAntiDumpPattern: severity is
min(100, 20·smartSellers + totalUSD/100) when a smart seller is involved,
else min(60, 10·uniqueWallets + totalUSD/200). -/
def analyzeCluster (wa : Option WalletAnalysis) (c : List TokenTrade) : DumpCluster :=
  let uniq := (c.map (fun t => t.walletAddress)).dedup
  let totalVolume := (c.map (fun t => t.totalValue)).sum
  let smart := smartWalletsOf wa
  let smartSellerCount := uniq.countP (fun w => smart.contains w)
  let severity :=
    if 0 < smartSellerCount then
      min 100 ((smartSellerCount : ℚ) * 20 + totalVolume / 100)
    else
      min 60 ((uniq.length : ℚ) * 10 + totalVolume / 200)
  { timestampStart := (c.headD defaultTrade).timestamp,
    timestampEnd := (c.getLastD defaultTrade).timestamp,
    durationSeconds := (c.getLastD defaultTrade).timestamp - (c.headD defaultTrade).timestamp,
    transactionCount := c.length,
    uniqueWallets := uniq.length,
    smartWallets := smartSellerCount,
    totalVolume := totalVolume,
    severity := severity }

/-- checkAntiDumpPattern over the trades of the last 24 hours: filter the
sells, require at least 5 of them, cluster, analyse each cluster, and flag
detection when the highest cluster severity reaches 30. -/
def checkAntiDumpPattern (trades : List TokenTrade) (wa : Option WalletAnalysis) :
    AntiDumpResult :=
  if trades.isEmpty then ⟨false, 0, []⟩
  else
    let sells := trades.filter (fun t => t.tradeType == "sell")
    if sells.length < 5 then ⟨false, 0, []⟩
    else
      let cs := dumpClusters sells
      if cs.isEmpty then ⟨false, 0, []⟩
      else
        let analyzed := cs.map (analyzeCluster wa)
        let highest := (analyzed.map (fun c => c.severity)).foldl max 0
        ⟨decide ((30 : ℚ) ≤ highest), highest, analyzed⟩

/-- calculateTokenQuality: holder/market-cap bands, social-presence
bonuses, wash-trading penalty from the volume/market-cap ratio. -/
def calculateTokenQuality (token : Token) (metrics : TokenMetrics) : ℚ :=
  let quality : ℚ := 50
  let quality := quality +
    (if 1000 < token.holderCount then 10 else if 500 < token.holderCount then 5 else 0)
  let quality := quality +
    (if 1000000 < metrics.marketCap then 10 else if 500000 < metrics.marketCap then 5 else 0)
  let quality := quality + (if token.website ≠ "" then 5 else 0)
  let quality := quality + (if token.twitter ≠ "" then 5 else 0)
  let quality := quality + (if token.telegram ≠ "" then 5 else 0)
  let volumeMcapRatio := if 0 < metrics.marketCap then metrics.volume1h / metrics.marketCap else 0
  let quality := quality -
    (if (50 : ℚ)/100 < volumeMcapRatio then 20 else if (30 : ℚ)/100 < volumeMcapRatio then 10 else 0)
  max 0 (min 100 quality)

/-- calculateWalletQuality: fresh/bot penalties, blue-chip bonus and
buy/sell-ratio bands. -/
def calculateWalletQuality (wa : WalletAnalysis) : ℚ :=
  let quality : ℚ := 50
  let quality :=
    if 0 < wa.totalWallets then
      let freshRatioQ := (wa.freshCount : ℚ) / wa.totalWallets
      let botRatioQ := (wa.botCount : ℚ) / wa.totalWallets
      let blueChipRatioQ := (wa.bluechipCount : ℚ) / wa.totalWallets
      let quality := quality -
        (if (70 : ℚ)/100 < freshRatioQ then 30 else if (50 : ℚ)/100 < freshRatioQ then 15 else 0)
      let quality := quality -
        (if (40 : ℚ)/100 < botRatioQ then 20 else if (20 : ℚ)/100 < botRatioQ then 10 else 0)
      quality +
        (if (10 : ℚ)/100 < blueChipRatioQ then 20 else if (5 : ℚ)/100 < blueChipRatioQ then 10 else 0)
    else quality
  let quality := quality +
    (if 3 < wa.buySellRatio then 15 else if 2 < wa.buySellRatio then 10
     else if wa.buySellRatio < (50 : ℚ)/100 then -20 else if wa.buySellRatio < (80 : ℚ)/100 then -10
     else 0)
  max 0 (min 100 quality)

/-- calculateTrustFactor: smart-money ratio tiers, early-trusted ratio
tiers and smart-money activity tiers. -/
def calculateTrustFactor (wa : WalletAnalysis) : ℚ :=
  let trust : ℚ := 50
  let trust :=
    if 0 < wa.totalWallets then
      let trust := trust +
        (if (20 : ℚ)/100 < wa.smartMoneyRatio then 30
         else if (10 : ℚ)/100 < wa.smartMoneyRatio then 20
         else if (5 : ℚ)/100 < wa.smartMoneyRatio then 10 else 0)
      trust +
        (if (50 : ℚ)/100 < wa.earlyTrustedRatio then 20
         else if (30 : ℚ)/100 < wa.earlyTrustedRatio then 10 else 0)
    else trust
  let trust := trust +
    (if 50 < wa.smartMoneyActivity then 15 else if 30 < wa.smartMoneyActivity then 10 else 0)
  max 0 (min 100 trust)

/-- calculateMarketDynamics: 1h volume tiers, 1h price-change tiers and
buy/sell-count ratio bands. -/
def calculateMarketDynamics (metrics : TokenMetrics) : ℚ :=
  let dynamics : ℚ := 50
  let dynamics := dynamics +
    (if 100000 < metrics.volume1h then 20 else if 50000 < metrics.volume1h then 15
     else if 10000 < metrics.volume1h then 10 else 0)
  let dynamics := dynamics +
    (if (20 : ℚ)/100 < metrics.priceChange1h then 15
     else if (10 : ℚ)/100 < metrics.priceChange1h then 10
     else if metrics.priceChange1h < -((20 : ℚ)/100) then -15
     else if metrics.priceChange1h < -((10 : ℚ)/100) then -10 else 0)
  let countRatio :=
    if 0 < metrics.sellCount1h then (metrics.buyCount1h : ℚ) / metrics.sellCount1h else 1
  let dynamics := dynamics +
    (if 2 < countRatio then 15 else if (3 : ℚ)/2 < countRatio then 10
     else if countRatio < (50 : ℚ)/100 then -15 else if countRatio < (80 : ℚ)/100 then -10
     else 0)
  max 0 (min 100 dynamics)

/-- calculateTemporalPatterns: fixed demo score. -/
def calculateTemporalPatterns : ℚ := 60

/-- calculateReactivationFactor: no reactivation bonus by default. -/
def calculateReactivationFactor : ℚ := 0

/-- X-Score result (pkg/models XScoreResult), with the components map as an
association list in insertion order. -/
structure XScoreResult where
  tokenAddress : String
  xScore : ℚ
  baseScore : ℚ
  components : List (String × ℚ)
  antiDump : AntiDumpResult
  deriving DecidableEq

/-- Wallet analysis actually used by CalculateXScore: the caller's, or the
default one when nil is passed. -/
def effectiveWalletAnalysis (waOpt : Option WalletAnalysis) (metrics : TokenMetrics) :
    WalletAnalysis :=
  match waOpt with
  | some w => w
  | none => defaultWalletAnalysis metrics

/-- CalculateXScore: weighted components, additive sniper and
price-smart-money bonuses, anti-dump penalty, final clamp to 0-100.
The gateway-backed GetTokenMetrics, GetToken and GetTokenRecentTrades
reads are passed in as the metrics, token and trades arguments. -/
def calculateXScore (token : Token) (metrics : TokenMetrics)
    (waOpt : Option WalletAnalysis) (trades : List TokenTrade) : XScoreResult :=
  let wa := effectiveWalletAnalysis waOpt metrics
  let tokenQuality := calculateTokenQuality token metrics
  let walletQuality := calculateWalletQuality wa
  let trustFactor := calculateTrustFactor wa
  let marketFactor := calculateMarketDynamics metrics
  let temporalFactor := calculateTemporalPatterns
  let reactivationFactor := calculateReactivationFactor
  let sniperBonus := 5 * min 1 ((wa.sniperCount : ℚ) / 3)
  let priceSmartBoost := metrics.priceChange1h * wa.smartMoneyRatio * 10
  let components : List (String × ℚ) :=
    [("token_quality", tokenQuality * (20/100)),
     ("wallet_quality", walletQuality * (25/100)),
     ("trust_factor", trustFactor * (20/100)),
     ("market_factor", marketFactor * (15/100)),
     ("temporal_factor", temporalFactor * (10/100)),
     ("reactivation_factor", reactivationFactor * (10/100)),
     ("sniper_bonus", sniperBonus),
     ("price_smart_boost", priceSmartBoost)]
  let baseScore := (components.map Prod.snd).sum
  let antiDump := checkAntiDumpPattern trades (some wa)
  let finalScore := if antiDump.detected then
      baseScore * (1 - min ((90 : ℚ)/100) (antiDump.severity / 100))
    else baseScore
  let components := if antiDump.detected then
      components ++ [("anti_dump_penalty",
        -(baseScore * min ((90 : ℚ)/100) (antiDump.severity / 100)))]
    else components
  { tokenAddress := token.address,
    xScore := max 0 (min 100 finalScore),
    baseScore := baseScore,
    components := components,
    antiDump := antiDump }

/-! ## Reactivation detector (internal/reactivation/reactivation.go) -/

/-- Smart wallet returns (pkg/models SmartWalletReturns), restricted to the
fields read by the score computation. -/
structure SmartWalletReturns where
  detected : Bool
  wallets : List String
  returningTotalVolume : ℚ
  deriving DecidableEq

/-- The three-key changes map produced by calculateMetricChanges. -/
structure MetricChanges where
  volume1hChange : ℚ
  priceChange : ℚ
  holderGrowth : ℚ
  deriving DecidableEq

/-- calculateMetricChanges: relative volume, price and holder-count changes
against the previous snapshot, defaulting to zero changes without one. -/
def calculateMetricChanges (current : TokenMetrics) (previous : Option TokenMetrics) :
    MetricChanges :=
  match previous with
  | none => ⟨0, 0, 0⟩
  | some prev =>
    let v := if 0 < current.volume1h ∧ 0 < prev.volume1h then current.volume1h / prev.volume1h
      else if 0 < current.volume1h then 10 else 0
    let p := if 0 < current.price ∧ 0 < prev.price then (current.price - prev.price) / prev.price
      else 0
    let h := if 0 < current.holderCount ∧ 0 < prev.holderCount then
        ((current.holderCount : ℚ) - (prev.holderCount : ℚ)) / (prev.holderCount : ℚ)
      else 0
    ⟨v, p, h⟩

/-- calculateReactivationScore: weighted clamped change factors scaled to
0-100, plus a bonus of up to 30 when smart wallet returns are detected,
the total clamped to 0-100. -/
def calculateReactivationScore (changes : MetricChanges)
    (sr : Option SmartWalletReturns) : ℚ :=
  let volumeFactor := min 1 (changes.volume1hChange / 5)
  let priceFactor := min 1 (changes.priceChange / ((30 : ℚ)/100))
  let holdersFactor := min 1 (changes.holderGrowth / ((10 : ℚ)/100))
  let baseScore :=
    (volumeFactor * ((50 : ℚ)/100) + priceFactor * ((30 : ℚ)/100) +
      holdersFactor * ((20 : ℚ)/100)) * 100
  let smartWalletBonus :=
    match sr with
    | some r =>
      if r.detected then
        (min 1 ((r.wallets.length : ℚ) / 5) * ((70 : ℚ)/100) +
          min 1 (r.returningTotalVolume / 500) * ((30 : ℚ)/100)) * 30
      else 0
    | none => 0
  max 0 (min 100 (baseScore + smartWalletBonus))

/-- Reactivation candidate (pkg/models ReactivationCandidate), restricted
to the fields the detector populates and reads. -/
structure ReactivationCandidate where
  tokenAddress : String
  tokenSymbol : String
  reactivationScore : ℚ
  changes : MetricChanges
  smartReturns : Option SmartWalletReturns
  deriving DecidableEq

/-- Inputs gathered for one dormant token during a scan: current metrics,
optional previous snapshot, optional smart-returns detection result. -/
structure DormantTokenInput where
  tokenAddress : String
  tokenSymbol : String
  currentMetrics : TokenMetrics
  previousMetrics : Option TokenMetrics
  smartReturns : Option SmartWalletReturns
  deriving DecidableEq

/-- Lifecycle state set on processed reactivation candidates. -/
def lifecycleStateReactivated : String := "REACTIVATED"

/-- Calls made into the Token Engine by the reactivation detector. -/
inductive EngineCall where
  | updateTokenState (tokenAddress newState : String)
  | saveReactivationMetrics (candidate : ReactivationCandidate)
  deriving DecidableEq

/-- ScanDormantTokens: compute changes and score per dormant token and keep
tokens whose reactivation score reaches 60 as candidates. -/
def scanDormantTokens (inputs : List DormantTokenInput) : List ReactivationCandidate :=
  inputs.filterMap fun inp =>
    let changes := calculateMetricChanges inp.currentMetrics inp.previousMetrics
    let score := calculateReactivationScore changes inp.smartReturns
    if 60 ≤ score then
      some ⟨inp.tokenAddress, inp.tokenSymbol, score, changes, inp.smartReturns⟩
    else none

/-- ProcessReactivationCandidate: update the token state to REACTIVATED and
save the reactivation metrics. -/
def processReactivationCandidate (c : ReactivationCandidate) : List EngineCall :=
  [.updateTokenState c.tokenAddress lifecycleStateReactivated, .saveReactivationMetrics c]

/-- One iteration of scanRoutine: scan, then process every candidate. -/
def scanRoutineIteration (inputs : List DormantTokenInput) : List EngineCall :=
  (scanDormantTokens inputs).flatMap processReactivationCandidate

/-! ## JSON values (encoding/json as used by the pipeline)

JSON numbers are modelled as integers (Go decodes them to float64; none of
the verified properties exercise fractional number formatting).  Objects
and arrays use dedicated mutual list types so that all functions below are
structurally recursive and kernel-reducible. -/

mutual
inductive JVal where
  | jnull
  | jbool (flag : Bool)
  | jnum (value : Int)
  | jstr (text : String)
  | jarr (items : JList)
  | jobj (entries : JFields)
  deriving DecidableEq
inductive JList where
  | jnil
  | jcons (first : JVal) (more : JList)
  deriving DecidableEq
inductive JFields where
  | jnil
  | jcons (fieldName : String) (fieldVal : JVal) (more : JFields)
  deriving DecidableEq
end

/-- Association-list view converted into JSON object fields. -/
def toJFields : List (String × JVal) → JFields
  | [] => .jnil
  | (k, v) :: tl => .jcons k v (toJFields tl)

/-- Lookup of a key in JSON object fields (first match). -/
def JFields.lookupKey : JFields → String → Option JVal
  | .jnil, _ => none
  | .jcons k v tl, key => if k = key then some v else tl.lookupKey key

/-- Opening brace character. -/
def lbraceChar : Char := Char.ofNat 123

/-- Closing brace character. -/
def rbraceChar : Char := Char.ofNat 125

/-- Hexadecimal digit character (lower case), as emitted by
encoding/json escapes. -/
def hexDigitChar (n : Nat) : Char :=
  if n < 10 then Char.ofNat (48 + n) else Char.ofNat (87 + n)

/-- Go encoding/json string escaping: quote, backslash, newline, carriage
return and tab get two-character escapes, other control characters and the
HTML-escaped characters get a u-escape, everything else is literal. -/
def escapeChar (c : Char) : List Char :=
  if c = '"' then ['\\', '"']
  else if c = '\\' then ['\\', '\\']
  else if c = '\n' then ['\\', 'n']
  else if c = '\r' then ['\\', 'r']
  else if c = '\t' then ['\\', 't']
  else if c.toNat < 32 ∨ c = '<' ∨ c = '>' ∨ c = '&' then
    ['\\', 'u', '0', '0', hexDigitChar (c.toNat / 16), hexDigitChar (c.toNat % 16)]
  else [c]

/-- Escaped, quoted JSON string literal. -/
def encodeJString (s : String) : List Char :=
  '"' :: (s.toList.flatMap escapeChar ++ ['"'])

mutual
/-- JSON encoding of a value, mirroring encoding/json output (no
whitespace; object fields in the order of the model list, standing for the
canonical key order Go uses when marshalling a map). -/
def encodeJVal : JVal → List Char
  | .jnull => ['n', 'u', 'l', 'l']
  | .jbool true => ['t', 'r', 'u', 'e']
  | .jbool false => ['f', 'a', 'l', 's', 'e']
  | .jnum n => (toString n).toList
  | .jstr s => encodeJString s
  | .jarr xs => '[' :: (encodeJList xs ++ [']'])
  | .jobj kvs => lbraceChar :: (encodeJFields kvs ++ [rbraceChar])
/-- JSON encoding of array elements, comma-separated. -/
def encodeJList : JList → List Char
  | .jnil => []
  | .jcons v .jnil => encodeJVal v
  | .jcons v tl => encodeJVal v ++ ',' :: encodeJList tl
/-- JSON encoding of object fields, comma-separated. -/
def encodeJFields : JFields → List Char
  | .jnil => []
  | .jcons k v .jnil => encodeJString k ++ ':' :: encodeJVal v
  | .jcons k v tl => (encodeJString k ++ ':' :: encodeJVal v) ++ ',' :: encodeJFields tl
end

/-- JSON text of a value. -/
def encodeJson (v : JVal) : String :=
  String.mk (encodeJVal v)

/-- Value of a hexadecimal digit character. -/
def hexVal (c : Char) : Option Nat :=
  if 48 ≤ c.toNat ∧ c.toNat ≤ 57 then some (c.toNat - 48)
  else if 97 ≤ c.toNat ∧ c.toNat ≤ 102 then some (c.toNat - 87)
  else if 65 ≤ c.toNat ∧ c.toNat ≤ 70 then some (c.toNat - 55)
  else none

/-- Character-number test. -/
def isDigitChar (c : Char) : Bool :=
  48 ≤ c.toNat ∧ c.toNat ≤ 57

/-- Digits parsed into a natural number accumulator. -/
def parseDigits : List Char → Nat → Option (Nat × List Char)
  | [], _ => none
  | c :: rest, acc =>
    if isDigitChar c then
      match parseDigits rest (acc * 10 + (c.toNat - 48)) with
      | some r => some r
      | none => some (acc * 10 + (c.toNat - 48), rest)
    else none

/-- JSON number parsing (integer part only, matching the model). -/
def parseJNum : List Char → Option (Int × List Char)
  | '-' :: rest =>
    match parseDigits rest 0 with
    | some (n, r) => some (-(n : Int), r)
    | none => none
  | cs =>
    match parseDigits cs 0 with
    | some (n, r) => some ((n : Int), r)
    | none => none

/-- JSON string body parsing after the opening quote, decoding the
standard escapes.  Fuel bounds the recursion; one unit per consumed
character always suffices. -/
def parseJStringBody : Nat → List Char → List Char → Option (String × List Char)
  | 0, _, _ => none
  | _ + 1, _, [] => none
  | fuel + 1, acc, c :: rest =>
    if c = '"' then some (String.mk acc.reverse, rest)
    else if c = '\\' then
      match rest with
      | [] => none
      | e :: rest2 =>
        if e = '"' ∨ e = '\\' ∨ e = '/' then parseJStringBody fuel (e :: acc) rest2
        else if e = 'n' then parseJStringBody fuel ('\n' :: acc) rest2
        else if e = 'r' then parseJStringBody fuel ('\r' :: acc) rest2
        else if e = 't' then parseJStringBody fuel ('\t' :: acc) rest2
        else if e = 'b' then parseJStringBody fuel (Char.ofNat 8 :: acc) rest2
        else if e = 'f' then parseJStringBody fuel (Char.ofNat 12 :: acc) rest2
        else if e = 'u' then
          match rest2 with
          | h1 :: h2 :: h3 :: h4 :: rest3 =>
            match hexVal h1, hexVal h2, hexVal h3, hexVal h4 with
            | some a, some b2, some c2, some d =>
              parseJStringBody fuel
                (Char.ofNat (((a * 16 + b2) * 16 + c2) * 16 + d) :: acc) rest3
            | _, _, _, _ => none
          | _ => none
        else none
    else parseJStringBody fuel (c :: acc) rest

mutual
/-- Recursive-descent JSON value parsing with fuel (the wrappers pass the
input length plus one, which suffices for all inputs arising in this
development; exhausted fuel reports a parse failure). -/
def parseJVal : Nat → List Char → Option (JVal × List Char)
  | 0, _ => none
  | _ + 1, [] => none
  | fuel + 1, c :: rest =>
    if c = '"' then
      match parseJStringBody (rest.length + 1) [] rest with
      | some (s, r) => some (.jstr s, r)
      | none => none
    else if c = lbraceChar then
      match rest with
      | [] => none
      | c2 :: rest2 =>
        if c2 = rbraceChar then some (.jobj .jnil, rest2)
        else
          match parseJFields fuel (c2 :: rest2) with
          | some (kvs, r) => some (.jobj kvs, r)
          | none => none
    else if c = '[' then
      match rest with
      | [] => none
      | c2 :: rest2 =>
        if c2 = ']' then some (.jarr .jnil, rest2)
        else
          match parseJList fuel (c2 :: rest2) with
          | some (xs, r) => some (.jarr xs, r)
          | none => none
    else if c = 't' then
      match rest with
      | 'r' :: 'u' :: 'e' :: r => some (.jbool true, r)
      | _ => none
    else if c = 'f' then
      match rest with
      | 'a' :: 'l' :: 's' :: 'e' :: r => some (.jbool false, r)
      | _ => none
    else if c = 'n' then
      match rest with
      | 'u' :: 'l' :: 'l' :: r => some (.jnull, r)
      | _ => none
    else
      match parseJNum (c :: rest) with
      | some (n, r) => some (.jnum n, r)
      | none => none
/-- Array elements: value, then comma-separated continuation or closing
bracket. -/
def parseJList : Nat → List Char → Option (JList × List Char)
  | 0, _ => none
  | fuel + 1, cs =>
    match parseJVal fuel cs with
    | some (v, r) =>
      match r with
      | ',' :: r2 =>
        match parseJList fuel r2 with
        | some (tl, r3) => some (.jcons v tl, r3)
        | none => none
      | ']' :: r2 => some (.jcons v .jnil, r2)
      | _ => none
    | none => none
/-- Object fields: quoted key, colon, value, then comma-separated
continuation or closing brace. -/
def parseJFields : Nat → List Char → Option (JFields × List Char)
  | 0, _ => none
  | fuel + 1, cs =>
    match cs with
    | '"' :: rest =>
      match parseJStringBody (rest.length + 1) [] rest with
      | some (k, r) =>
        match r with
        | ':' :: r2 =>
          match parseJVal fuel r2 with
          | some (v, r3) =>
            match r3 with
            | ',' :: r4 =>
              match parseJFields fuel r4 with
              | some (tl, r5) => some (.jcons k v tl, r5)
              | none => none
            | c :: r4 =>
              if c = rbraceChar then some (.jcons k v .jnil, r4) else none
            | [] => none
          | none => none
        | _ => none
      | none => none
    | _ => none
end

/-- json.Unmarshal into interface, requiring the whole input to be
consumed. -/
def parseJson (s : String) : Option JVal :=
  match parseJVal (s.length + 1) s.toList with
  | some (v, []) => some v
  | _ => none

/-! ## Event pipeline (second pipeline implementation in the repository:
PublishMessage marshals the whole Message and re-encodes nested containers
as JSON text; the consumer lifts type and timestamp and JSON-decodes
candidate payload values) -/

/-- Value stored in one field of a broker stream record.  Broker record
values are strings; the time constructor stands for the RFC3339Nano text
of the instant (Go formats and re-parses it losslessly), keeping the model
free of calendar formatting. -/
inductive WireVal where
  | str (s : String)
  | time (t : Int)
  deriving DecidableEq

/-- Flat broker stream record. -/
abbrev StreamRecord := List (String × WireVal)

/-- Pipeline message.  The timestamp is an instant in Unix nanoseconds,
with 0 standing for the zero time.Time; the payload is the JSON tree of
the Go payload map. -/
structure Message where
  id : String
  type : String
  timestamp : Int
  payload : List (String × JVal)
  deriving DecidableEq

/-- PublishMessage before XAdd: assign the id and timestamp when absent,
marshal the whole message, and re-encode the nested payload map as JSON
text, producing the flat record 'id', 'type', 'timestamp', 'payload'. -/
def publishRecord (now : Int) (m : Message) : StreamRecord :=
  let mid := if m.id = "" then "msg_" ++ toString now else m.id
  let ts := if m.timestamp = 0 then now else m.timestamp
  [("id", .str mid), ("type", .str m.type), ("timestamp", .time ts),
   ("payload", .str (encodeJson (.jobj (toJFields m.payload))))]

/-- Scalar check of the consumer: a string value whose first character is
an opening brace or bracket is a candidate for JSON decoding. -/
def looksJson (s : String) : Bool :=
  match s.toList with
  | c :: _ => c = lbraceChar ∨ c = '['
  | [] => false

/-- Decoding step of the consumer loop for one record field. -/
def decodeField (m : Message) (kv : String × WireVal) : Message :=
  match kv with
  | ("type", v) =>
    match v with
    | .str s => { m with type := s }
    | .time _ => m
  | ("timestamp", v) =>
    match v with
    | .time t => { m with timestamp := t }
    | .str _ => m
  | (k, v) =>
    match v with
    | .str s =>
      if looksJson s then
        match parseJson s with
        | some obj => { m with payload := m.payload ++ [(k, obj)] }
        | none => { m with payload := m.payload ++ [(k, .jstr s)] }
      else { m with payload := m.payload ++ [(k, .jstr s)] }
    | .time t => { m with payload := m.payload ++ [(k, .jnum t)] }

/-- Consumer-side decoding of one stream record: the Message starts with
the broker entry id and the current time, then each record field is
lifted (type, timestamp) or placed into the payload, JSON-decoding string
values that start with a brace or bracket. -/
def decodeStreamMessage (entryId : String) (now : Int) (rec : StreamRecord) : Message :=
  rec.foldl decodeField ⟨entryId, "", now, []⟩

/-- Association-list update with Go map semantics: replace the first
binding of the key or append a new one. -/
def aset {α β : Type} [BEq α] (k : α) (v : β) : List (α × β) → List (α × β)
  | [] => [(k, v)]
  | (k2, v2) :: tl => if k2 == k then (k, v) :: tl else (k2, v2) :: aset k v tl

/-- Per-stream broker state: the next auto-generated entry id and the
append-only entry log. -/
structure StreamData where
  nextId : Nat
  entries : List (Nat × StreamRecord)
  deriving DecidableEq

/-- Per-(stream, group) consumer-group state: the last-delivered entry id
cursor used by reads with the new-messages id, and the pending entries
list of delivered-but-unacknowledged ids. -/
structure GroupState where
  lastDelivered : Nat
  pending : List Nat
  deriving DecidableEq

/-- Redis broker model: streams and consumer groups. -/
structure Broker where
  streams : List (String × StreamData)
  groups : List ((String × String) × GroupState)
  deriving DecidableEq

/-- Broker with no streams and no groups. -/
def emptyBroker : Broker := ⟨[], []⟩

/-- Entries of a stream. -/
def streamEntries (b : Broker) (s : String) : List (Nat × StreamRecord) :=
  match b.streams.lookup s with
  | some sd => sd.entries
  | none => []

/-- XADD with auto id: create the stream when missing and append the
record under a fresh increasing entry id. -/
def xadd (stream : String) (rec : StreamRecord) (b : Broker) : Broker :=
  let sd := (b.streams.lookup stream).getD ⟨1, []⟩
  { b with streams := aset stream ⟨sd.nextId + 1, sd.entries ++ [(sd.nextId, rec)]⟩ b.streams }

/-- Id of the newest entry of a stream (0 when empty), the position the
dollar id denotes at group creation. -/
def lastEntryId (sd : StreamData) : Nat := sd.nextId - 1

/-- XGroupCreate wrapper of the cache layer: when the stream does not
exist it is first created with an init record; the group is then created
at the dollar position, and an already existing group is success. -/
def xgroupCreate (stream group : String) (b : Broker) : Broker :=
  let b1 := if (b.streams.lookup stream).isSome then b
    else xadd stream [("init", WireVal.str "true")] b
  match b1.groups.lookup (stream, group) with
  | some _ => b1
  | none =>
    let sd := (b1.streams.lookup stream).getD ⟨1, []⟩
    { b1 with groups := aset (stream, group) ⟨lastEntryId sd, []⟩ b1.groups }

/-- XReadGroup with the new-messages id: return up to count entries newer
than the group cursor, advance the cursor past them and add them to the
pending list.  Entries left unacknowledged by an earlier read are not
returned again. -/
def xreadgroup (stream group : String) (count : Nat) (b : Broker) :
    List (Nat × StreamRecord) × Broker :=
  match b.streams.lookup stream, b.groups.lookup (stream, group) with
  | some sd, some gs =>
    let fresh := (sd.entries.filter (fun e => gs.lastDelivered < e.fst)).take count
    match fresh.getLast? with
    | none => ([], b)
    | some lastE =>
      let gs2 : GroupState := ⟨lastE.fst, gs.pending ++ fresh.map Prod.fst⟩
      (fresh, { b with groups := aset (stream, group) gs2 b.groups })
  | _, _ => ([], b)

/-- XACK: drop the entry from the pending list. -/
def xack (stream group : String) (entryId : Nat) (b : Broker) : Broker :=
  match b.groups.lookup (stream, group) with
  | none => b
  | some gs =>
    let gs2 : GroupState := ⟨gs.lastDelivered, gs.pending.filter (fun x => x ≠ entryId)⟩
    { b with groups := aset (stream, group) gs2 b.groups }

/-- Pending entries of a group. -/
def groupPending (b : Broker) (stream group : String) : List Nat :=
  match b.groups.lookup (stream, group) with
  | some gs => gs.pending
  | none => []

/-- Registered processor: its name and its Process behaviour, given as a
function of the number of earlier invocations of this processor and the
decoded message, returning success or failure. -/
structure Processor where
  name : String
  process : Nat → Message → Bool

/-- RegisterProcessor: keyed by the processor name, duplicate registration
overwrites. -/
def registerProcessor (reg : List (String × Processor)) (p : Processor) :
    List (String × Processor) :=
  aset p.name p reg

/-- Registry after registering a list of processors in order. -/
def registerAll (procs : List Processor) : List (String × Processor) :=
  procs.foldl registerProcessor []

/-- Consumer spawned by Start: it reads the stream named by the registry
key and uses the processor name as the consumer group. -/
structure Consumer where
  stream : String
  group : String
  proc : Processor

/-- Start: one consumer per registry entry, reading the stream whose name
is the registry key with a group named after the processor. -/
def startConsumers (reg : List (String × Processor)) : List Consumer :=
  reg.map fun kv => ⟨kv.fst, kv.snd.name, kv.snd⟩

/-- Pipeline run state: the broker, the invocation log as (processor name,
stream read from, entry id) triples, and the per-processor invocation
counters driving the Process behaviour. -/
structure PipeState where
  broker : Broker
  log : List (String × String × Nat)
  counts : List (String × Nat)
  deriving DecidableEq

/-- Invocation count of a processor. -/
def countOf (counts : List (String × Nat)) (n : String) : Nat :=
  (counts.lookup n).getD 0

/-- Body of the batch loop of startConsumer for one read message: decode,
invoke Process, and acknowledge only on success. -/
def consumeOne (c : Consumer) (st : PipeState) (em : Nat × StreamRecord) : PipeState :=
  let m := decodeStreamMessage (toString em.fst) 0 em.snd
  let ok := c.proc.process (countOf st.counts c.proc.name) m
  { broker := if ok then xack c.stream c.group em.fst st.broker else st.broker,
    log := st.log ++ [(c.proc.name, c.stream, em.fst)],
    counts := aset c.proc.name (countOf st.counts c.proc.name + 1) st.counts }

/-- One iteration of the consumption loop of startConsumer: read a batch
of up to 10 messages and process each in order. -/
def consumerCycle (c : Consumer) (st : PipeState) : PipeState :=
  let rb := xreadgroup c.stream c.group 10 st.broker
  rb.fst.foldl (consumeOne c) { st with broker := rb.snd }

/-- Interleaving operations of a pipeline run: a publish of a message to a
stream, or one read cycle of the consumer at an index. -/
inductive PipeOp where
  | publish (stream : String) (now : Int) (m : Message)
  | cycle (idx : Nat)

/-- One interleaving step of a pipeline run: a PublishMessage call, or one
read cycle of the consumer at the given index. -/
def pipelineStep (consumers : List Consumer) (st : PipeState) (op : PipeOp) : PipeState :=
  match op with
  | .publish s now m => { st with broker := xadd s (publishRecord now m) st.broker }
  | .cycle i =>
    match consumers[i]? with
    | some c => consumerCycle c st
    | none => st

/-- Pipeline run: groups are created for every consumer at start, then the
operations execute in order. -/
def runPipeline (consumers : List Consumer) (ops : List PipeOp) : PipeState :=
  let b0 := consumers.foldl (fun b c => xgroupCreate c.stream c.group b) emptyBroker
  ops.foldl (pipelineStep consumers) ⟨b0, [], []⟩

/-- Redelivery scenario processor: Process fails (returns an error) on its
first invocation and succeeds on every later one, as in the spec's
pipeline-redelivery scenario. -/
def c5processor : Processor := ⟨"p", fun k _ => k != 0⟩

/-- Consumer spawned for the redelivery scenario processor. -/
def c5consumer : Consumer := ⟨"p", "p", c5processor⟩

/-- The single event published in the redelivery scenario. -/
def c5message : Message :=
  ⟨"msg_1", "state_change", 1700000000, [("token_address", JVal.jstr "T1")]⟩

/-- Redelivery scenario start state: the consumer group exists (entry 1 is
the init record) and the event has been published as entry 2. -/
def c5initialState : PipeState :=
  ⟨xadd "p" (publishRecord 99 c5message) (xgroupCreate "p" "p" emptyBroker), [], []⟩

/-! ## Lemmas about the trust graph -/

theorem graphAdd_wallets (db : String → Option ℚ) (g : TrustGraph) (i : WalletInteraction)
    (a : String) :
    (graphAddInteraction db g i).wallets a =
      if a = i.walletAddress then some (updWalletNode db g i) else g.wallets a := rfl

theorem graphAdd_tokens (db : String → Option ℚ) (g : TrustGraph) (i : WalletInteraction)
    (a : String) :
    (graphAddInteraction db g i).tokens a =
      if a = i.tokenAddress then some (updTokenNode g i) else g.tokens a := rfl

theorem tokens_pres {g : TrustGraph} {b : String} {t : TokenNode} {iid : String}
    (db : String → Option ℚ) (i : WalletInteraction)
    (hb : g.tokens b = some t) (hm : iid ∈ t.interactions) :
    ∃ t2, (graphAddInteraction db g i).tokens b = some t2 ∧ iid ∈ t2.interactions := by
  by_cases hbt : b = i.tokenAddress
  · subst hbt
    refine ⟨updTokenNode g i, by simp [graphAdd_tokens], ?_⟩
    have hbase : baseTokenNode g i = t := by simp [baseTokenNode, hb]
    simp [updTokenNode, hbase]
    exact Or.inl hm
  · exact ⟨t, by simp [graphAdd_tokens, hbt, hb], hm⟩

theorem wallets_pres {g : TrustGraph} {b : String} {w : WalletNode} {iid : String}
    (db : String → Option ℚ) (i : WalletInteraction)
    (hb : g.wallets b = some w) (hm : iid ∈ w.interactions) :
    ∃ w2, (graphAddInteraction db g i).wallets b = some w2 ∧ iid ∈ w2.interactions := by
  by_cases hbw : b = i.walletAddress
  · subst hbw
    refine ⟨updWalletNode db g i, by simp [graphAdd_wallets], ?_⟩
    have hbase : baseWalletNode db g i = w := by simp [baseWalletNode, hb]
    simp [updWalletNode, hbase]
    exact Or.inl hm
  · exact ⟨w, by simp [graphAdd_wallets, hbw, hb], hm⟩

theorem graphAdd_wellFormed {g : TrustGraph} (db : String → Option ℚ)
    (i : WalletInteraction) (h : GraphWellFormed g) :
    GraphWellFormed (graphAddInteraction db g i) := by
  obtain ⟨h1, h2, h3⟩ := h
  refine ⟨?_, ?_, ?_⟩
  · intro a w ha iid hiid
    rw [graphAdd_wallets] at ha
    by_cases haw : a = i.walletAddress
    · rw [if_pos haw, Option.some_inj] at ha
      subst ha
      have hmem : iid ∈ (baseWalletNode db g i).interactions ∨ iid = mkInteractionId i := by
        simpa [updWalletNode] using hiid
      rcases hmem with hold | hnew
      · cases hw : g.wallets i.walletAddress with
        | some wOld =>
          rw [show baseWalletNode db g i = wOld by simp [baseWalletNode, hw]] at hold
          obtain ⟨b, t, hbt, hm⟩ := h1 _ _ hw iid hold
          exact ⟨b, tokens_pres db i hbt hm |>.choose,
            (tokens_pres db i hbt hm).choose_spec.1, (tokens_pres db i hbt hm).choose_spec.2⟩
        | none =>
          rw [show baseWalletNode db g i =
              ⟨i.walletAddress, (db i.walletAddress).getD defaultTrustScore, []⟩ by
            simp [baseWalletNode, hw]] at hold
          simp at hold
      · subst hnew
        exact ⟨i.tokenAddress, updTokenNode g i, by simp [graphAdd_tokens],
          by simp [updTokenNode]⟩
    · rw [if_neg haw] at ha
      obtain ⟨b, t, hbt, hm⟩ := h1 _ _ ha iid hiid
      obtain ⟨t2, ht2, hm2⟩ := tokens_pres db i hbt hm
      exact ⟨b, t2, ht2, hm2⟩
  · intro a t ha iid hiid
    rw [graphAdd_tokens] at ha
    by_cases hat : a = i.tokenAddress
    · rw [if_pos hat, Option.some_inj] at ha
      subst ha
      have hmem : iid ∈ (baseTokenNode g i).interactions ∨ iid = mkInteractionId i := by
        simpa [updTokenNode] using hiid
      rcases hmem with hold | hnew
      · cases ht : g.tokens i.tokenAddress with
        | some tOld =>
          rw [show baseTokenNode g i = tOld by simp [baseTokenNode, ht]] at hold
          obtain ⟨b, w, hbw, hm⟩ := h2 _ _ ht iid hold
          obtain ⟨w2, hw2, hm2⟩ := wallets_pres db i hbw hm
          exact ⟨b, w2, hw2, hm2⟩
        | none =>
          rw [show baseTokenNode g i = ⟨i.tokenAddress, [], []⟩ by
            simp [baseTokenNode, ht]] at hold
          simp at hold
      · subst hnew
        exact ⟨i.walletAddress, updWalletNode db g i, by simp [graphAdd_wallets],
          by simp [updWalletNode]⟩
    · rw [if_neg hat] at ha
      obtain ⟨b, w, hbw, hm⟩ := h2 _ _ ha iid hiid
      obtain ⟨w2, hw2, hm2⟩ := wallets_pres db i hbw hm
      exact ⟨b, w2, hw2, hm2⟩
  · intro a t ha
    rw [graphAdd_tokens] at ha
    by_cases hat : a = i.tokenAddress
    · rw [if_pos hat, Option.some_inj] at ha
      subst ha
      have hbase : (baseTokenNode g i).wallets.Nodup := by
        cases ht : g.tokens i.tokenAddress with
        | some tOld =>
          rw [show baseTokenNode g i = tOld by simp [baseTokenNode, ht]]
          exact h3 _ _ ht
        | none =>
          rw [show baseTokenNode g i = ⟨i.tokenAddress, [], []⟩ by
            simp [baseTokenNode, ht]]
          simp
      show (if i.walletAddress ∈ (baseTokenNode g i).wallets then (baseTokenNode g i).wallets
        else (baseTokenNode g i).wallets ++ [i.walletAddress]).Nodup
      split
      · exact hbase
      · next hnot =>
        simp [List.nodup_append, hbase, hnot]
    · rw [if_neg hat] at ha
      exact h3 _ _ ha

theorem record_wellFormed {g : TrustGraph} (db : String → Option ℚ)
    (i : WalletInteraction) (h : GraphWellFormed g) :
    GraphWellFormed (recordWalletInteraction db g i) := by
  unfold recordWalletInteraction
  split
  · exact h
  · exact graphAdd_wellFormed db i h

theorem foldl_graphAdd_wellFormed {g : TrustGraph} (db : String → Option ℚ)
    (l : List WalletInteraction) (h : GraphWellFormed g) :
    GraphWellFormed (l.foldl (graphAddInteraction db) g) := by
  induction l generalizing g with
  | nil => exact h
  | cons i tl ih => exact ih (graphAdd_wellFormed db i h)

theorem foldl_record_wellFormed {g : TrustGraph} (db : String → Option ℚ)
    (l : List WalletInteraction) (h : GraphWellFormed g) :
    GraphWellFormed (l.foldl (recordWalletInteraction db) g) := by
  induction l generalizing g with
  | nil => exact h
  | cons i tl ih => exact ih (record_wellFormed db i h)

theorem loadWalletScores_tokens (rows : List WalletTrustScoreRow) (g : TrustGraph) :
    (loadWalletScores rows g).tokens = g.tokens := by
  induction rows generalizing g with
  | nil => rfl
  | cons r tl ih => exact (ih _).trans rfl

theorem loadWalletScores_wallets_empty {g : TrustGraph}
    (rows : List WalletTrustScoreRow)
    (h : ∀ a w, g.wallets a = some w → w.interactions = []) :
    ∀ a w, (loadWalletScores rows g).wallets a = some w → w.interactions = [] := by
  induction rows generalizing g with
  | nil => exact h
  | cons r tl ih =>
    apply ih
    intro a w ha
    by_cases har : a = r.address
    · simp only [loadWalletScores] at ha ⊢
      have : (if a = r.address then some (⟨r.address, r.trustScore, []⟩ : WalletNode)
          else g.wallets a) = some w := ha
      rw [if_pos har, Option.some_inj] at this
      subst this
      rfl
    · have : (if a = r.address then some (⟨r.address, r.trustScore, []⟩ : WalletNode)
          else g.wallets a) = some w := ha
      rw [if_neg har] at this
      exact h a w this

theorem load_wellFormed (db : String → Option ℚ) (rows : List WalletTrustScoreRow)
    (recent : List WalletInteraction) :
    GraphWellFormed (loadTrustGraph db rows recent emptyGraph) := by
  unfold loadTrustGraph
  apply foldl_graphAdd_wellFormed
  refine ⟨?_, ?_, ?_⟩
  · intro a w ha iid hiid
    have := loadWalletScores_wallets_empty rows (by intro a w h; cases h) a w ha
    rw [this] at hiid
    cases hiid
  · intro a t ha
    rw [loadWalletScores_tokens] at ha
    cases ha
  · intro a t ha
    rw [loadWalletScores_tokens] at ha
    cases ha

/-- C9: after the Start-time graph load and any sequence of
RecordWalletInteraction calls, every interaction id on a wallet node is
also present on a token node and vice versa, and no wallet address occurs
twice in any token node wallet list. -/
theorem trustGraph_wellFormed_after_run (db : String → Option ℚ)
    (rows : List WalletTrustScoreRow) (recent : List WalletInteraction)
    (records : List WalletInteraction) :
    GraphWellFormed (runTrustNetwork db rows recent records) :=
  foldl_record_wellFormed db records (load_wellFormed db rows recent)

/-! ## RecordWalletInteraction idempotence (claim C1) -/

/-- C1 counterexample: recording the same interaction twice duplicates the
interaction id on the wallet node (and on the token node), so the graph
differs from the single-call graph. -/
theorem recordTwice_counterexample :
    (((recordWalletInteraction (fun _ => none)
          (recordWalletInteraction (fun _ => none) emptyGraph ⟨"tx1", "w1", "t1"⟩)
          ⟨"tx1", "w1", "t1"⟩).wallets "w1").map WalletNode.interactions =
        some ["tx1:w1:t1", "tx1:w1:t1"]) ∧
    (((recordWalletInteraction (fun _ => none) emptyGraph
          ⟨"tx1", "w1", "t1"⟩).wallets "w1").map WalletNode.interactions =
        some ["tx1:w1:t1"]) ∧
    (recordWalletInteraction (fun _ => none)
          (recordWalletInteraction (fun _ => none) emptyGraph ⟨"tx1", "w1", "t1"⟩)
          ⟨"tx1", "w1", "t1"⟩).wallets "w1" ≠
      (recordWalletInteraction (fun _ => none) emptyGraph
          ⟨"tx1", "w1", "t1"⟩).wallets "w1" := by
  refine ⟨by decide, by decide, by decide⟩

/-- C1 amended: a second RecordWalletInteraction call with the same
interaction leaves all token wallet lists, all other nodes and the wallet
trust score unchanged, but appends a duplicate of the interaction id to
the interaction lists of the wallet node and of the token node. -/
theorem recordWalletInteraction_twice (db : String → Option ℚ) (g : TrustGraph)
    (i : WalletInteraction) (hw : i.walletAddress ≠ "") (ht : i.tokenAddress ≠ "") :
    (∀ a t1 t2,
        (recordWalletInteraction db g i).tokens a = some t1 →
        (recordWalletInteraction db (recordWalletInteraction db g i) i).tokens a = some t2 →
        t2.wallets = t1.wallets) ∧
    (∀ a, a ≠ i.walletAddress →
        (recordWalletInteraction db (recordWalletInteraction db g i) i).wallets a =
          (recordWalletInteraction db g i).wallets a) ∧
    (∀ a, a ≠ i.tokenAddress →
        (recordWalletInteraction db (recordWalletInteraction db g i) i).tokens a =
          (recordWalletInteraction db g i).tokens a) ∧
    (∃ w1 w2,
        (recordWalletInteraction db g i).wallets i.walletAddress = some w1 ∧
        (recordWalletInteraction db (recordWalletInteraction db g i) i).wallets
            i.walletAddress = some w2 ∧
        w2.trustScore = w1.trustScore ∧
        w2.interactions = w1.interactions ++ [mkInteractionId i]) ∧
    (∃ t1 t2,
        (recordWalletInteraction db g i).tokens i.tokenAddress = some t1 ∧
        (recordWalletInteraction db (recordWalletInteraction db g i) i).tokens
            i.tokenAddress = some t2 ∧
        t2.wallets = t1.wallets ∧
        t2.interactions = t1.interactions ++ [mkInteractionId i]) := by
  have hguard : ¬ (i.walletAddress = "" ∨ i.tokenAddress = "") := by
    simp [hw, ht]
  have hrec : ∀ g2, recordWalletInteraction db g2 i = graphAddInteraction db g2 i := by
    intro g2
    unfold recordWalletInteraction
    rw [if_neg hguard]
  set g1 := recordWalletInteraction db g i with hg1
  have hg1w : g1.wallets i.walletAddress = some (updWalletNode db g i) := by
    rw [hg1, hrec, graphAdd_wallets, if_pos rfl]
  have hg1t : g1.tokens i.tokenAddress = some (updTokenNode g i) := by
    rw [hg1, hrec, graphAdd_tokens, if_pos rfl]
  have hbase2w : baseWalletNode db g1 i = updWalletNode db g i := by
    simp [baseWalletNode, hg1w]
  have hbase2t : baseTokenNode g1 i = updTokenNode g i := by
    simp [baseTokenNode, hg1t]
  have hwmem : i.walletAddress ∈ (updTokenNode g i).wallets := by
    simp only [updTokenNode]
    split
    · assumption
    · simp
  have hwallets2 : (updTokenNode g1 i).wallets = (updTokenNode g i).wallets := by
    have hdef : (updTokenNode g1 i).wallets =
        if i.walletAddress ∈ (baseTokenNode g1 i).wallets then (baseTokenNode g1 i).wallets
        else (baseTokenNode g1 i).wallets ++ [i.walletAddress] := rfl
    rw [hdef, hbase2t, if_pos hwmem]
  refine ⟨?_, ?_, ?_, ?_, ?_⟩
  · intro a t1 t2 h1 h2
    rw [hrec g1, graphAdd_tokens] at h2
    by_cases hat : a = i.tokenAddress
    · rw [if_pos hat] at h2
      rw [hat, hg1t, Option.some_inj] at h1
      rw [Option.some_inj] at h2
      subst h1
      subst h2
      exact hwallets2
    · rw [if_neg hat] at h2
      rw [h1] at h2
      rw [Option.some_inj] at h2
      subst h2
      rfl
  · intro a ha
    rw [hrec g1, graphAdd_wallets, if_neg ha]
  · intro a ha
    rw [hrec g1, graphAdd_tokens, if_neg ha]
  · refine ⟨updWalletNode db g i, updWalletNode db g1 i, hg1w, ?_, ?_, ?_⟩
    · rw [hrec g1, graphAdd_wallets, if_pos rfl]
    · simp [updWalletNode, hbase2w]
    · simp [updWalletNode, hbase2w]
  · refine ⟨updTokenNode g i, updTokenNode g1 i, hg1t, ?_, ?_, ?_⟩
    · rw [hrec g1, graphAdd_tokens, if_pos rfl]
    · exact hwallets2
    · simp [updTokenNode, hbase2t]

/-! ## GetTokenTrustMetrics lemmas (claim C2) -/

theorem trustMetricsStep_trusted (score : String → ℚ) (acc : TrustMetricsAcc) (w : String) :
    (trustMetricsStep score acc w).trustedCount =
      acc.trustedCount + (if 60 ≤ score w then 1 else 0) := by
  simp only [trustMetricsStep]
  split_ifs <;> first | rfl | linarith

theorem trustMetrics_foldl (score : String → ℚ) (wallets : List String)
    (acc : TrustMetricsAcc) :
    (wallets.foldl (trustMetricsStep score) acc).totalTrustScore =
        acc.totalTrustScore + (wallets.map score).sum ∧
    (wallets.foldl (trustMetricsStep score) acc).trustedCount =
        acc.trustedCount + wallets.countP (fun w => 60 ≤ score w) ∧
    ∀ k, (wallets.foldl (trustMetricsStep score) acc).dist k =
        acc.dist k + wallets.countP (fun w => trustCategory (score w) = k) := by
  induction wallets generalizing acc with
  | nil => simp
  | cons w tl ih =>
    obtain ⟨ih1, ih2, ih3⟩ := ih (trustMetricsStep score acc w)
    refine ⟨?_, ?_, ?_⟩
    · rw [List.foldl_cons, ih1]
      simp only [trustMetricsStep, List.map_cons, List.sum_cons]
      ring
    · rw [List.foldl_cons, ih2, trustMetricsStep_trusted, List.countP_cons]
      by_cases h : 60 ≤ score w <;> simp [h] <;> omega
    · intro k
      rw [List.foldl_cons, ih3 k, List.countP_cons]
      simp only [trustMetricsStep]
      by_cases h : trustCategory (score w) = k
      · rw [if_pos h.symm]
        simp [h]
        omega
      · rw [if_neg (fun hk => h hk.symm)]
        simp [h]

theorem trustCategory_excellent (s : ℚ) : trustCategory s = "excellent" ↔ 90 ≤ s := by
  unfold trustCategory
  split_ifs with h1 h2 h3 h4 h5 <;>
    exact ⟨fun h => by first | exact h1 | exact absurd h (by decide),
           fun h => by first | rfl | exact absurd h (by intro hx; exact h1 hx) | linarith⟩

theorem trustCategory_high (s : ℚ) : trustCategory s = "high" ↔ 75 ≤ s ∧ s < 90 := by
  unfold trustCategory
  split_ifs with h1 h2 h3 h4 h5 <;>
    refine ⟨fun h => ?_, fun h => ?_⟩ <;>
      first
      | rfl
      | exact absurd h (by decide)
      | exact ⟨by linarith, by linarith⟩
      | (exact absurd h1 (by push_neg; constructor <;> linarith))
      | linarith [h.1, h.2]

theorem trustCategory_good (s : ℚ) : trustCategory s = "good" ↔ 60 ≤ s ∧ s < 75 := by
  unfold trustCategory
  split_ifs with h1 h2 h3 h4 h5 <;>
    refine ⟨fun h => ?_, fun h => ?_⟩ <;>
      first
      | rfl
      | exact absurd h (by decide)
      | exact ⟨by linarith, by linarith⟩
      | linarith [h.1, h.2]

theorem trustCategory_average (s : ℚ) : trustCategory s = "average" ↔ 40 ≤ s ∧ s < 60 := by
  unfold trustCategory
  split_ifs with h1 h2 h3 h4 h5 <;>
    refine ⟨fun h => ?_, fun h => ?_⟩ <;>
      first
      | rfl
      | exact absurd h (by decide)
      | exact ⟨by linarith, by linarith⟩
      | linarith [h.1, h.2]

theorem trustCategory_low (s : ℚ) : trustCategory s = "low" ↔ 25 ≤ s ∧ s < 40 := by
  unfold trustCategory
  split_ifs with h1 h2 h3 h4 h5 <;>
    refine ⟨fun h => ?_, fun h => ?_⟩ <;>
      first
      | rfl
      | exact absurd h (by decide)
      | exact ⟨by linarith, by linarith⟩
      | linarith [h.1, h.2]

theorem trustCategory_poor (s : ℚ) : trustCategory s = "poor" ↔ s < 25 := by
  unfold trustCategory
  split_ifs with h1 h2 h3 h4 h5 <;>
    refine ⟨fun h => ?_, fun h => ?_⟩ <;>
      first
      | rfl
      | exact absurd h (by decide)
      | linarith

/-- C2 counterexample: a token whose single wallet has trust score 80
(at or above the smart-money threshold 70) still comes back with
smart-money count, ratio and activity equal to zero: GetTokenTrustMetrics
never computes the smart-money fields. -/
theorem tokenTrustMetrics_counterexample :
    (getTokenTrustMetrics "t1" (some ["w1"]) (fun _ => 80) ["w1"]).smartMoneyCount ≠
        (["w1"].countP fun w => 70 ≤ (fun _ => (80 : ℚ)) w) ∧
    (getTokenTrustMetrics "t1" (some ["w1"]) (fun _ => 80) ["w1"]).smartMoneyRatio = 0 ∧
    (getTokenTrustMetrics "t1" (some ["w1"]) (fun _ => 80) ["w1"]).smartMoneyActivity = 0 := by
  refine ⟨by decide, by decide, by decide⟩

/-- C2 amended: over the token wallet list, GetTokenTrustMetrics returns
the six-band trust distribution, the average score, the trusted count
(score at least 60) and the early-trust ratio over the early wallets with
score at least 60; the smart-money count, ratio and activity fields are
not computed and are returned as zero. -/
theorem getTokenTrustMetrics_spec (tokenAddress : String) (wallets : List String)
    (score : String → ℚ) (early : List String) :
    (getTokenTrustMetrics tokenAddress (some wallets) score early).activeWallets =
        wallets.length ∧
    (getTokenTrustMetrics tokenAddress (some wallets) score early).trustedWallets =
        wallets.countP (fun w => 60 ≤ score w) ∧
    (getTokenTrustMetrics tokenAddress (some wallets) score early).avgTrustScore =
        (if 0 < wallets.length then (wallets.map score).sum / wallets.length else 0) ∧
    ((getTokenTrustMetrics tokenAddress (some wallets) score early).trustScoreDistribution
        "excellent" = wallets.countP (fun w => 90 ≤ score w)) ∧
    ((getTokenTrustMetrics tokenAddress (some wallets) score early).trustScoreDistribution
        "high" = wallets.countP (fun w => 75 ≤ score w ∧ score w < 90)) ∧
    ((getTokenTrustMetrics tokenAddress (some wallets) score early).trustScoreDistribution
        "good" = wallets.countP (fun w => 60 ≤ score w ∧ score w < 75)) ∧
    ((getTokenTrustMetrics tokenAddress (some wallets) score early).trustScoreDistribution
        "average" = wallets.countP (fun w => 40 ≤ score w ∧ score w < 60)) ∧
    ((getTokenTrustMetrics tokenAddress (some wallets) score early).trustScoreDistribution
        "low" = wallets.countP (fun w => 25 ≤ score w ∧ score w < 40)) ∧
    ((getTokenTrustMetrics tokenAddress (some wallets) score early).trustScoreDistribution
        "poor" = wallets.countP (fun w => score w < 25)) ∧
    (getTokenTrustMetrics tokenAddress (some wallets) score early).earlyTrustRatio =
        (if early.length ≠ 0 then
          ((early.countP (fun w => 60 ≤ score w) : ℚ)) / early.length else 0) ∧
    (getTokenTrustMetrics tokenAddress (some wallets) score early).smartMoneyCount = 0 ∧
    (getTokenTrustMetrics tokenAddress (some wallets) score early).smartMoneyRatio = 0 ∧
    (getTokenTrustMetrics tokenAddress (some wallets) score early).smartMoneyActivity = 0 := by
  obtain ⟨hsum, htrusted, hdist⟩ :=
    trustMetrics_foldl score wallets ⟨0, 0, fun _ => 0⟩
  have hcount : ∀ (k : String) (p : ℚ → Prop) [DecidablePred p],
      (∀ s, trustCategory s = k ↔ p s) →
      wallets.countP (fun w => trustCategory (score w) = k) =
        wallets.countP (fun w => p (score w)) := by
    intro k p hp hiff
    apply List.countP_congr
    intro w _
    show decide (trustCategory (score w) = k) = true ↔ decide (p (score w)) = true
    simp only [decide_eq_true_eq]
    exact hiff (score w)
  simp only [getTokenTrustMetrics]
  refine ⟨?_, ?_, ?_, ?_, ?_, ?_, ?_, ?_, ?_, ?_, ?_, ?_, ?_⟩ <;>
    first
    | rfl
    | trivial
    | skip
  case _ =>
    by_cases h : 0 < wallets.length
    · simp only [if_pos h, htrusted]
      exact Nat.zero_add _
    · have hnil : wallets = [] := List.length_eq_zero.mp (by omega)
      subst hnil
      simp
  case _ =>
    by_cases h : 0 < wallets.length
    · simp only [if_pos h, hsum]
      norm_num
    · simp only [if_neg h]
  case _ =>
    rw [hdist "excellent", hcount "excellent" _ trustCategory_excellent]
    exact Nat.zero_add _
  case _ =>
    rw [hdist "high", hcount "high" _ trustCategory_high]
    exact Nat.zero_add _
  case _ =>
    rw [hdist "good", hcount "good" _ trustCategory_good]
    exact Nat.zero_add _
  case _ =>
    rw [hdist "average", hcount "average" _ trustCategory_average]
    exact Nat.zero_add _
  case _ =>
    rw [hdist "low", hcount "low" _ trustCategory_low]
    exact Nat.zero_add _
  case _ =>
    rw [hdist "poor", hcount "poor" _ trustCategory_poor]
    exact Nat.zero_add _

/-! ## Token-influencer lemmas (claim C3) -/

theorem mem_insertDescBy {α : Type} (key : α → ℚ) (x : α) (l : List α) (y : α) :
    y ∈ insertDescBy key x l ↔ y = x ∨ y ∈ l := by
  induction l with
  | nil => simp [insertDescBy]
  | cons z zs ih =>
    simp only [insertDescBy]
    split
    · simp [List.mem_cons]
    · simp only [List.mem_cons, ih]
      tauto

theorem sorted_insertDescBy {α : Type} (key : α → ℚ) (x : α) {l : List α}
    (h : l.Sorted (fun a b => key b ≤ key a)) :
    (insertDescBy key x l).Sorted (fun a b => key b ≤ key a) := by
  induction l with
  | nil => simp [insertDescBy]
  | cons y ys ih =>
    rw [List.sorted_cons] at h
    obtain ⟨hy, hys⟩ := h
    simp only [insertDescBy]
    split
    · next hlt =>
      rw [List.sorted_cons]
      refine ⟨?_, List.sorted_cons.mpr ⟨hy, hys⟩⟩
      intro b hb
      rcases List.mem_cons.mp hb with rfl | hb2
      · exact le_of_lt hlt
      · exact le_trans (hy b hb2) (le_of_lt hlt)
    · next hnlt =>
      rw [List.sorted_cons]
      refine ⟨?_, ih hys⟩
      intro b hb
      rcases (mem_insertDescBy key x ys b).mp hb with rfl | hb2
      · exact le_of_not_lt hnlt
      · exact hy b hb2

theorem mem_sortDescBy {α : Type} (key : α → ℚ) (l : List α) (y : α) :
    y ∈ sortDescBy key l ↔ y ∈ l := by
  induction l with
  | nil => simp [sortDescBy]
  | cons x xs ih =>
    simp only [sortDescBy, mem_insertDescBy, List.mem_cons, ih]

theorem sorted_sortDescBy {α : Type} (key : α → ℚ) (l : List α) :
    (sortDescBy key l).Sorted (fun a b => key b ≤ key a) := by
  induction l with
  | nil => simp [sortDescBy]
  | cons x xs ih => exact sorted_insertDescBy key x ih

/-- C3 counterexample: on the compute path, GetTokenInfluencers keeps an
entry whose influence score is 0 (the claimed minimum-score filter of 5
does not exist), and with trust score 80 and all other trader data zero
the returned score is 12, not the claimed
trustScore·0.01·(100/max(1,entryRank) + min(50, 10·log10(buyVol+1)) +
min(30, holdDays/10)) = 80·0.01·(100/1 + 0 + 0) = 80 (log10(0+1) = 0, so
the logarithm term is written as 10·0 below). -/
theorem tokenInfluencers_counterexample :
    (calculateTokenInfluencers "t1" [⟨"w1", 0, 0, 1⟩]
        (fun _ => some 0) (fun _ => some 0) 10 =
      [⟨"w1", "t1", 0, 0, 0, 0, 1⟩]) ∧
    ¬ (5 ≤ (⟨"w1", "t1", 0, 0, 0, 0, 1⟩ : WalletInfluence).influenceScore) ∧
    ((calculateTokenInfluencers "t1" [⟨"w1", 0, 0, 1⟩]
        (fun _ => some 0) (fun _ => some 80) 10).map
          (fun e => e.influenceScore) = [12]) ∧
    (12 : ℚ) ≠
      80 * (1/100) * (100 / max 1 ((1 : ℚ)) + min 50 (10 * 0) + min 30 ((0 : ℚ) / 10)) := by
  refine ⟨?_, ?_, ?_, ?_⟩
  · norm_num [calculateTokenInfluencers, influenceOfTrader, sortDescBy, insertDescBy]
  · norm_num
  · norm_num [calculateTokenInfluencers, influenceOfTrader, sortDescBy, insertDescBy]
  · norm_num

/-- C3 amended: the compute-on-miss path of GetTokenInfluencers returns,
for each trader, an entry whose influence score is the weighted sum
0.40·(relativeVolume·100) + 0.30·(earlyInvestor·100) +
0.15·(priceImpact·100) + 0.15·trustScore (with database defaults 0 for
price impact and 50 for trust), applies no minimum-score filter, sorts by
descending influence score and truncates to the limit. -/
theorem calculateTokenInfluencers_spec (tokenAddress : String)
    (traders : List TokenTrader) (priceImpact : String → Option ℚ)
    (trust : String → Option ℚ) (limit : Nat) :
    (∀ e ∈ calculateTokenInfluencers tokenAddress traders priceImpact trust limit,
        ∃ tr ∈ traders, e = influenceOfTrader tokenAddress priceImpact trust tr ∧
          e.influenceScore =
            tr.relativeVolume * 100 * (40/100) + tr.earlyInvestor * 100 * (30/100) +
              ((priceImpact tr.walletAddress).getD 0) * 100 * (15/100) +
              ((trust tr.walletAddress).getD 50) * (15/100)) ∧
    (calculateTokenInfluencers tokenAddress traders priceImpact trust limit).Sorted
        (fun a b => b.influenceScore ≤ a.influenceScore) ∧
    (calculateTokenInfluencers tokenAddress traders priceImpact trust limit).length ≤
        limit := by
  refine ⟨?_, ?_, ?_⟩
  · intro e he
    have he2 : e ∈ sortDescBy (fun e => e.influenceScore)
        (traders.map (influenceOfTrader tokenAddress priceImpact trust)) :=
      List.take_subset _ _ he
    have he3 := (mem_sortDescBy _ _ e).mp he2
    obtain ⟨tr, htr, rfl⟩ := List.mem_map.mp he3
    exact ⟨tr, htr, rfl, rfl⟩
  · exact List.Pairwise.sublist (List.take_sublist _ _)
      (sorted_sortDescBy (fun e : WalletInfluence => e.influenceScore)
        (traders.map (influenceOfTrader tokenAddress priceImpact trust)))
  · exact (List.length_take _ _).trans_le (Nat.min_le_left _ _)

/-! ## Reactivation detector (claim C8) -/

/-- C8: the reactivation score equals
100·(0.5·min(1, vChange/5) + 0.3·min(1, pChange/0.3) + 0.2·min(1, hGrowth/0.1))
plus, when smart returns are detected, a bonus of
30·(0.7·min(1, wallets/5) + 0.3·min(1, volume/500)), clamped to [0, 100];
and every scan candidate has score at least 60 and is processed by calling
UpdateTokenState(REACTIVATED) and SaveReactivationMetrics. -/
theorem reactivation_spec (inputs : List DormantTokenInput) :
    (∀ (changes : MetricChanges) (sr : Option SmartWalletReturns),
        calculateReactivationScore changes sr =
          max 0 (min 100
            (100 * ((50/100) * min 1 (changes.volume1hChange / 5) +
                    (30/100) * min 1 (changes.priceChange / ((30 : ℚ)/100)) +
                    (20/100) * min 1 (changes.holderGrowth / ((10 : ℚ)/100))) +
              (match sr with
                | some r =>
                  if r.detected then
                    30 * ((70/100) * min 1 ((r.wallets.length : ℚ) / 5) +
                          (30/100) * min 1 (r.returningTotalVolume / 500))
                  else 0
                | none => 0)))) ∧
    (∀ c ∈ scanDormantTokens inputs,
        60 ≤ c.reactivationScore ∧
        EngineCall.updateTokenState c.tokenAddress lifecycleStateReactivated ∈
          scanRoutineIteration inputs ∧
        EngineCall.saveReactivationMetrics c ∈ scanRoutineIteration inputs) := by
  constructor
  · intro changes sr
    cases sr with
    | none =>
      simp only [calculateReactivationScore]
      congr 2
      ring
    | some r =>
      cases hr : r.detected with
      | true =>
        simp only [calculateReactivationScore, hr, if_true]
        congr 2
        ring
      | false =>
        simp only [calculateReactivationScore, hr, if_false]
        congr 2
        ring
  · intro c hc
    have hscore : 60 ≤ c.reactivationScore := by
      simp only [scanDormantTokens, List.mem_filterMap] at hc
      obtain ⟨inp, hinp, heq⟩ := hc
      split at heq
      · next h =>
        rw [Option.some_inj] at heq
        rw [← heq]
        exact h
      · cases heq
    refine ⟨hscore, ?_, ?_⟩
    · exact List.mem_flatMap.mpr ⟨c, hc, by simp [processReactivationCandidate]⟩
    · exact List.mem_flatMap.mpr ⟨c, hc, by simp [processReactivationCandidate]⟩

/-! ## X-Score lemmas (claim C6) -/

theorem clamp100_nonneg (x : ℚ) : 0 ≤ max 0 (min 100 x) := le_max_left 0 _

theorem clamp100_le (x : ℚ) : max 0 (min 100 x) ≤ 100 :=
  max_le (by norm_num) (min_le_left _ _)

theorem calculateTokenQuality_bounds (token : Token) (metrics : TokenMetrics) :
    0 ≤ calculateTokenQuality token metrics ∧ calculateTokenQuality token metrics ≤ 100 :=
  ⟨clamp100_nonneg _, clamp100_le _⟩

theorem calculateWalletQuality_bounds (wa : WalletAnalysis) :
    0 ≤ calculateWalletQuality wa ∧ calculateWalletQuality wa ≤ 100 :=
  ⟨clamp100_nonneg _, clamp100_le _⟩

theorem calculateTrustFactor_bounds (wa : WalletAnalysis) :
    0 ≤ calculateTrustFactor wa ∧ calculateTrustFactor wa ≤ 100 :=
  ⟨clamp100_nonneg _, clamp100_le _⟩

theorem calculateMarketDynamics_bounds (metrics : TokenMetrics) :
    0 ≤ calculateMarketDynamics metrics ∧ calculateMarketDynamics metrics ≤ 100 :=
  ⟨clamp100_nonneg _, clamp100_le _⟩

/-- C6 counterexample: with a 10000% one-hour price change and smart-money
ratio 1, the price-smart-money boost is 1000, so the base score is
4173/4 = 1043.25, far above 100 (the final xScore is clamped, the base
score is not). -/
theorem xScoreBase_counterexample :
    (calculateXScore ⟨"t1", 0, "", "", ""⟩ ⟨0, 0, 0, 0, 100, 0, 0⟩
        (some ⟨0, 0, 0, 0, 0, 1, 0, 0, 0, []⟩) []).baseScore = 4173/4 ∧
    ¬ ((calculateXScore ⟨"t1", 0, "", "", ""⟩ ⟨0, 0, 0, 0, 100, 0, 0⟩
        (some ⟨0, 0, 0, 0, 0, 1, 0, 0, 0, []⟩) []).baseScore ≤ 100) := by
  constructor
  · norm_num [calculateXScore, effectiveWalletAnalysis, calculateTokenQuality,
      calculateWalletQuality, calculateTrustFactor, calculateMarketDynamics,
      calculateTemporalPatterns, calculateReactivationFactor, checkAntiDumpPattern]
  · norm_num [calculateXScore, effectiveWalletAnalysis, calculateTokenQuality,
      calculateWalletQuality, calculateTrustFactor, calculateMarketDynamics,
      calculateTemporalPatterns, calculateReactivationFactor, checkAntiDumpPattern]

/-- C6 amended: the final xScore is clamped to [0, 100]; each of the six
weighted component contributions is between 0 and its weight times 100 and
the sniper bonus is between 0 and 5; the base score is the sum of the
eight component contributions (the unbounded price-smart-money boost can
push it outside [0, 100]); and when anti-dump is detected the xScore
equals the base score scaled by one minus min(0.9, severity/100), clamped
to [0, 100]. -/
theorem calculateXScore_spec (token : Token) (metrics : TokenMetrics)
    (waOpt : Option WalletAnalysis) (trades : List TokenTrade) :
    (0 ≤ (calculateXScore token metrics waOpt trades).xScore ∧
      (calculateXScore token metrics waOpt trades).xScore ≤ 100) ∧
    ((calculateXScore token metrics waOpt trades).components.lookup "token_quality" =
        some (calculateTokenQuality token metrics * (20/100)) ∧
      0 ≤ calculateTokenQuality token metrics * (20/100) ∧
      calculateTokenQuality token metrics * (20/100) ≤ (20/100) * 100) ∧
    ((calculateXScore token metrics waOpt trades).components.lookup "wallet_quality" =
        some (calculateWalletQuality (effectiveWalletAnalysis waOpt metrics) * (25/100)) ∧
      0 ≤ calculateWalletQuality (effectiveWalletAnalysis waOpt metrics) * (25/100) ∧
      calculateWalletQuality (effectiveWalletAnalysis waOpt metrics) * (25/100) ≤
        (25/100) * 100) ∧
    ((calculateXScore token metrics waOpt trades).components.lookup "trust_factor" =
        some (calculateTrustFactor (effectiveWalletAnalysis waOpt metrics) * (20/100)) ∧
      0 ≤ calculateTrustFactor (effectiveWalletAnalysis waOpt metrics) * (20/100) ∧
      calculateTrustFactor (effectiveWalletAnalysis waOpt metrics) * (20/100) ≤
        (20/100) * 100) ∧
    ((calculateXScore token metrics waOpt trades).components.lookup "market_factor" =
        some (calculateMarketDynamics metrics * (15/100)) ∧
      0 ≤ calculateMarketDynamics metrics * (15/100) ∧
      calculateMarketDynamics metrics * (15/100) ≤ (15/100) * 100) ∧
    ((calculateXScore token metrics waOpt trades).components.lookup "temporal_factor" =
        some (calculateTemporalPatterns * (10/100)) ∧
      0 ≤ calculateTemporalPatterns * (10/100) ∧
      calculateTemporalPatterns * (10/100) ≤ (10/100) * 100) ∧
    ((calculateXScore token metrics waOpt trades).components.lookup "reactivation_factor" =
        some (calculateReactivationFactor * (10/100)) ∧
      0 ≤ calculateReactivationFactor * (10/100) ∧
      calculateReactivationFactor * (10/100) ≤ (10/100) * 100) ∧
    ((calculateXScore token metrics waOpt trades).components.lookup "sniper_bonus" =
        some (5 * min 1 (((effectiveWalletAnalysis waOpt metrics).sniperCount : ℚ) / 3)) ∧
      0 ≤ 5 * min 1 (((effectiveWalletAnalysis waOpt metrics).sniperCount : ℚ) / 3) ∧
      5 * min 1 (((effectiveWalletAnalysis waOpt metrics).sniperCount : ℚ) / 3) ≤ 5) ∧
    ((calculateXScore token metrics waOpt trades).baseScore =
        calculateTokenQuality token metrics * (20/100) +
        calculateWalletQuality (effectiveWalletAnalysis waOpt metrics) * (25/100) +
        calculateTrustFactor (effectiveWalletAnalysis waOpt metrics) * (20/100) +
        calculateMarketDynamics metrics * (15/100) +
        calculateTemporalPatterns * (10/100) +
        calculateReactivationFactor * (10/100) +
        5 * min 1 (((effectiveWalletAnalysis waOpt metrics).sniperCount : ℚ) / 3) +
        metrics.priceChange1h * (effectiveWalletAnalysis waOpt metrics).smartMoneyRatio
          * 10) ∧
    ((calculateXScore token metrics waOpt trades).antiDump.detected = true →
      (calculateXScore token metrics waOpt trades).xScore =
        max 0 (min 100 ((calculateXScore token metrics waOpt trades).baseScore *
          (1 - min ((90 : ℚ)/100)
            ((calculateXScore token metrics waOpt trades).antiDump.severity / 100))))) := by
  have hsniper0 : 0 ≤ 5 * min 1 (((effectiveWalletAnalysis waOpt metrics).sniperCount : ℚ) / 3) := by
    have : (0 : ℚ) ≤ min 1 (((effectiveWalletAnalysis waOpt metrics).sniperCount : ℚ) / 3) :=
      le_min (by norm_num) (div_nonneg (Nat.cast_nonneg _) (by norm_num))
    linarith
  have hsniper5 : 5 * min 1 (((effectiveWalletAnalysis waOpt metrics).sniperCount : ℚ) / 3) ≤ 5 := by
    have : min 1 (((effectiveWalletAnalysis waOpt metrics).sniperCount : ℚ) / 3) ≤ 1 :=
      min_le_left _ _
    linarith
  have hcomp : ∀ q : ℚ, 0 ≤ q → q ≤ 100 → ∀ w : ℚ, 0 ≤ w →
      0 ≤ q * w ∧ q * w ≤ w * 100 := by
    intro q h0 h100 w hw
    refine ⟨mul_nonneg h0 hw, ?_⟩
    calc q * w ≤ 100 * w := mul_le_mul_of_nonneg_right h100 hw
      _ = w * 100 := by ring
  have htq := calculateTokenQuality_bounds token metrics
  have hwq := calculateWalletQuality_bounds (effectiveWalletAnalysis waOpt metrics)
  have htf := calculateTrustFactor_bounds (effectiveWalletAnalysis waOpt metrics)
  have hmf := calculateMarketDynamics_bounds metrics
  simp only [calculateXScore]
  by_cases hd : (checkAntiDumpPattern trades
      (some (effectiveWalletAnalysis waOpt metrics))).detected = true
  · simp only [hd, if_true]
    refine ⟨⟨clamp100_nonneg _, clamp100_le _⟩,
      ⟨rfl, hcomp _ htq.1 htq.2 _ (by norm_num)⟩,
      ⟨rfl, hcomp _ hwq.1 hwq.2 _ (by norm_num)⟩,
      ⟨rfl, hcomp _ htf.1 htf.2 _ (by norm_num)⟩,
      ⟨rfl, hcomp _ hmf.1 hmf.2 _ (by norm_num)⟩,
      ⟨rfl, by norm_num [calculateTemporalPatterns]⟩,
      ⟨rfl, by norm_num [calculateReactivationFactor]⟩,
      ⟨rfl, hsniper0, hsniper5⟩, ?_, ?_⟩
    · show (List.map Prod.snd _).sum = _
      simp only [List.map_cons, List.map_nil, List.sum_cons, List.sum_nil]
      ring
    · exact fun _ => trivial
  · simp only [hd, if_false]
    refine ⟨⟨clamp100_nonneg _, clamp100_le _⟩,
      ⟨rfl, hcomp _ htq.1 htq.2 _ (by norm_num)⟩,
      ⟨rfl, hcomp _ hwq.1 hwq.2 _ (by norm_num)⟩,
      ⟨rfl, hcomp _ htf.1 htf.2 _ (by norm_num)⟩,
      ⟨rfl, hcomp _ hmf.1 hmf.2 _ (by norm_num)⟩,
      ⟨rfl, by norm_num [calculateTemporalPatterns]⟩,
      ⟨rfl, by norm_num [calculateReactivationFactor]⟩,
      ⟨rfl, hsniper0, hsniper5⟩, ?_, ?_⟩
    · show (List.map Prod.snd _).sum = _
      simp only [List.map_cons, List.map_nil, List.sum_cons, List.sum_nil]
      ring
    · intro h
      simp at h

/-! ## Anti-dump lemmas (claim C7) -/

theorem dumpClustersAux_spec (rest : List TokenTrade) :
    ∀ (cs : List (List TokenTrade)) (cur : List TokenTrade),
    (∀ cl ∈ cs, 3 ≤ cl.length ∧
        cl.Chain' (fun a b => b.timestamp - a.timestamp ≤ 300)) →
    cur.reverse.Chain' (fun a b => b.timestamp - a.timestamp ≤ 300) →
    ∀ cl ∈ dumpClustersAux cs cur rest, 3 ≤ cl.length ∧
        cl.Chain' (fun a b => b.timestamp - a.timestamp ≤ 300) := by
  induction rest with
  | nil =>
    intro cs cur hcs hcur cl hcl
    simp only [dumpClustersAux] at hcl
    split at hcl
    · next hlen =>
      rcases List.mem_append.mp hcl with h | h
      · exact hcs cl h
      · have : cl = cur.reverse := by simpa using h
        subst this
        exact ⟨by simpa using hlen, hcur⟩
    · exact hcs cl hcl
  | cons tx rest2 ih =>
    intro cs cur hcs hcur cl hcl
    cases cur with
    | nil =>
      exact ih cs [tx] hcs (by simp) cl (by simpa [dumpClustersAux] using hcl)
    | cons last tl =>
      simp only [dumpClustersAux] at hcl
      split at hcl
      · next hgap =>
        refine ih cs (tx :: last :: tl) hcs ?_ cl hcl
        rw [List.reverse_cons]
        refine List.chain'_append.mpr ⟨hcur, List.chain'_singleton tx, ?_⟩
        intro x hx y hy
        rw [List.getLast?_reverse] at hx
        simp only [List.head?_cons, Option.mem_def, Option.some_inj] at hx
        simp only [List.head?_cons, Option.mem_def, Option.some_inj] at hy
        subst hx
        subst hy
        exact hgap
      · split at hcl
        · next hlen =>
          refine ih (cs ++ [(last :: tl).reverse]) [tx] ?_ (by simp) cl hcl
          intro cl2 hcl2
          rcases List.mem_append.mp hcl2 with h | h
          · exact hcs cl2 h
          · have : cl2 = (last :: tl).reverse := by simpa using h
            subst this
            exact ⟨by simpa using hlen, hcur⟩
        · exact ih cs [tx] hcs (by simp) cl hcl

theorem dumpClusters_spec (l : List TokenTrade) :
    ∀ cl ∈ dumpClusters l, 3 ≤ cl.length ∧
        cl.Chain' (fun a b => b.timestamp - a.timestamp ≤ 300) := by
  cases l with
  | nil => intro cl hcl; cases hcl
  | cons tx rest =>
    exact dumpClustersAux_spec rest [] [tx] (by intro cl h; cases h) (by simp)

theorem le_foldl_max (l : List ℚ) (a : ℚ) : a ≤ l.foldl max a := by
  induction l generalizing a with
  | nil => exact le_refl a
  | cons x xs ih => exact le_trans (le_max_left a x) (ih (max a x))

theorem mem_le_foldl_max : ∀ (l : List ℚ) (a x : ℚ), x ∈ l → x ≤ l.foldl max a := by
  intro l
  induction l with
  | nil => intro a x hx; cases hx
  | cons y ys ih =>
    intro a x hx
    rcases List.mem_cons.mp hx with rfl | h
    · exact le_trans (le_max_right a x) (le_foldl_max ys (max a x))
    · exact ih (max a y) x h

theorem foldl_max_mem : ∀ (l : List ℚ) (a : ℚ), l.foldl max a = a ∨ l.foldl max a ∈ l := by
  intro l
  induction l with
  | nil => intro a; exact Or.inl rfl
  | cons x xs ih =>
    intro a
    rcases ih (max a x) with h | h
    · rcases max_choice a x with hm | hm
      · left
        rw [List.foldl_cons, h, hm]
      · right
        rw [List.foldl_cons, h, hm]
        exact List.mem_cons_self x xs
    · right
      exact List.mem_cons_of_mem x h

/-- C7 counterexample: three sells of 4000 USD each, 100 seconds apart,
do form a cluster of 3 sells whose severity would be
min(60, 10·1 + 12000/200) = 60 (at or above the detection threshold 30),
yet checkAntiDumpPattern reports no dump: the code requires at least 5
sells before doing any clustering. -/
theorem antiDump_counterexample :
    checkAntiDumpPattern
        [⟨"w1", "sell", 0, 4000⟩, ⟨"w1", "sell", 100, 4000⟩, ⟨"w1", "sell", 200, 4000⟩]
        none = ⟨false, 0, []⟩ ∧
    dumpClusters
        [⟨"w1", "sell", 0, 4000⟩, ⟨"w1", "sell", 100, 4000⟩, ⟨"w1", "sell", 200, 4000⟩] =
      [[⟨"w1", "sell", 0, 4000⟩, ⟨"w1", "sell", 100, 4000⟩, ⟨"w1", "sell", 200, 4000⟩]] ∧
    (analyzeCluster none
        [⟨"w1", "sell", 0, 4000⟩, ⟨"w1", "sell", 100, 4000⟩,
          ⟨"w1", "sell", 200, 4000⟩]).severity = 60 ∧
    (30 : ℚ) ≤ 60 := by
  refine ⟨?_, ?_, ?_, by norm_num⟩
  · norm_num [checkAntiDumpPattern]
  · norm_num [dumpClusters, dumpClustersAux]
  · norm_num [analyzeCluster, smartWalletsOf, List.dedup_cons_of_mem, List.dedup_cons_of_not_mem]

/-- C7 amended: over the last-24h sells taken in the order received (the
code never sorts, despite the comment), the detector requires at least 5
sells, forms clusters of consecutive sells with inter-sell gap at most
300 s keeping clusters of at least 3 sells, assigns each cluster severity
min(100, 20·smartSellers + totalUSD/100) when a smart seller is involved
and min(60, 10·uniqueWallets + totalUSD/200) otherwise, and reports
detected exactly when the maximum severity reaches 30; zero sells yield
the empty result. -/
theorem checkAntiDumpPattern_spec (trades : List TokenTrade) (wa : Option WalletAnalysis) :
    (trades = [] → checkAntiDumpPattern trades wa = ⟨false, 0, []⟩) ∧
    ((trades.filter (fun t => t.tradeType == "sell")).length < 5 →
        checkAntiDumpPattern trades wa = ⟨false, 0, []⟩) ∧
    ((checkAntiDumpPattern trades wa).detected = true ↔
        30 ≤ (checkAntiDumpPattern trades wa).severity) ∧
    (∀ cl ∈ dumpClusters (trades.filter (fun t => t.tradeType == "sell")),
        3 ≤ cl.length ∧ cl.Chain' (fun a b => b.timestamp - a.timestamp ≤ 300)) ∧
    (∀ c ∈ (checkAntiDumpPattern trades wa).clusters,
        3 ≤ c.transactionCount ∧
        c.severity = (if 0 < c.smartWallets then
            min 100 ((c.smartWallets : ℚ) * 20 + c.totalVolume / 100)
          else min 60 ((c.uniqueWallets : ℚ) * 10 + c.totalVolume / 200)) ∧
        c.severity ≤ (checkAntiDumpPattern trades wa).severity) ∧
    ((checkAntiDumpPattern trades wa).severity = 0 ∨
        ∃ c ∈ (checkAntiDumpPattern trades wa).clusters,
          c.severity = (checkAntiDumpPattern trades wa).severity) := by
  refine ⟨?_, ?_, ?_, dumpClusters_spec _, ?_, ?_⟩
  · intro h
    subst h
    rfl
  · intro h5
    simp only [checkAntiDumpPattern, if_pos h5]
    split
    · rfl
    · rfl
  · simp only [checkAntiDumpPattern]
    split
    · simp
    · split
      · simp
      · split
        · simp
        · simp only [decide_eq_true_eq]
  · simp only [checkAntiDumpPattern]
    split
    · intro c hc
      cases hc
    · split
      · intro c hc
        cases hc
      · split
        · intro c hc
          cases hc
        · intro c hc
          simp only at hc
          obtain ⟨cl, hcl, rfl⟩ := List.mem_map.mp hc
          have hspec := dumpClusters_spec _ cl hcl
          refine ⟨hspec.1, rfl, ?_⟩
          exact mem_le_foldl_max _ 0 _ (List.mem_map_of_mem _ (List.mem_map_of_mem _ hcl))
  · simp only [checkAntiDumpPattern]
    split
    · left
      rfl
    · split
      · left
        rfl
      · split
        · left
          rfl
        · rcases foldl_max_mem ((dumpClusters
              (trades.filter (fun t => t.tradeType == "sell"))).map
                (analyzeCluster wa) |>.map (fun c => c.severity)) 0 with h | h
          · left
            exact h
          · right
            obtain ⟨c, hc, hceq⟩ := List.mem_map.mp h
            exact ⟨c, hc, hceq⟩

/-! ## Pipeline publish/consume round trip (claim C4) -/

/-- C4: publishing a message and decoding it in the consumer yields the
original type and timestamp, but the payload leaves are NOT restored at
their keys: the whole original payload sits JSON-decoded under the single
key payload, the original message id is demoted to the payload key id, and
the decoded message id is the broker entry id.  The repository's own
TokenProcessor reads Payload at token_address and therefore fails on every
event this publisher emits. -/
theorem publishConsume_payload_misplaced :
    (decodeStreamMessage "1-0" 555 (publishRecord 99
        ⟨"msg_1", "state_change", 1700000000,
          [("token_address", JVal.jstr "T1"), ("new_state", JVal.jstr "HYPED")]⟩)).type
        = "state_change" ∧
    (decodeStreamMessage "1-0" 555 (publishRecord 99
        ⟨"msg_1", "state_change", 1700000000,
          [("token_address", JVal.jstr "T1"), ("new_state", JVal.jstr "HYPED")]⟩)).timestamp
        = 1700000000 ∧
    (decodeStreamMessage "1-0" 555 (publishRecord 99
        ⟨"msg_1", "state_change", 1700000000,
          [("token_address", JVal.jstr "T1"), ("new_state", JVal.jstr "HYPED")]⟩)).payload.lookup
        "token_address" = none ∧
    (decodeStreamMessage "1-0" 555 (publishRecord 99
        ⟨"msg_1", "state_change", 1700000000,
          [("token_address", JVal.jstr "T1"), ("new_state", JVal.jstr "HYPED")]⟩)).payload.lookup
        "payload" = some (JVal.jobj (toJFields
          [("token_address", JVal.jstr "T1"), ("new_state", JVal.jstr "HYPED")])) ∧
    (decodeStreamMessage "1-0" 555 (publishRecord 99
        ⟨"msg_1", "state_change", 1700000000,
          [("token_address", JVal.jstr "T1"), ("new_state", JVal.jstr "HYPED")]⟩)).payload.lookup
        "id" = some (JVal.jstr "msg_1") ∧
    (decodeStreamMessage "1-0" 555 (publishRecord 99
        ⟨"msg_1", "state_change", 1700000000,
          [("token_address", JVal.jstr "T1"), ("new_state", JVal.jstr "HYPED")]⟩)).id
        = "1-0" := by
  refine ⟨by decide, by decide, by decide, by decide, by decide, by decide⟩

/-! ## Pipeline redelivery (claim C5) -/

/-- C5: with one published event and a processor that fails on its first
invocation and would succeed on any later one, any number of consumer read
cycles still invokes Process exactly once (on broker entry 2), the entry
stays in the pending list forever, and no read cycle ever re-presents it:
reads use only the new-messages id, so the un-acknowledged event is never
redelivered. -/
theorem pipeline_no_redelivery (n : Nat) (hn : 1 ≤ n) :
    ((consumerCycle c5consumer)^[n] c5initialState).log = [("p", "p", 2)] ∧
    groupPending ((consumerCycle c5consumer)^[n] c5initialState).broker "p" "p" = [2] ∧
    countOf ((consumerCycle c5consumer)^[n] c5initialState).counts "p" = 1 := by
  have hfix : consumerCycle c5consumer (consumerCycle c5consumer c5initialState) =
      consumerCycle c5consumer c5initialState := by decide
  have hiter : ∀ m, 1 ≤ m → (consumerCycle c5consumer)^[m] c5initialState =
      consumerCycle c5consumer c5initialState := by
    intro m hm
    induction m with
    | zero => omega
    | succ k ih =>
      cases Nat.eq_zero_or_pos k with
      | inl hk =>
        subst hk
        exact Function.iterate_one _ ▸ rfl
      | inr hk =>
        rw [Function.iterate_succ_apply', ih hk, hfix]
  rw [hiter n hn]
  refine ⟨by decide, by decide, by decide⟩

/-- C5 witnessed at two read cycles. -/
theorem pipeline_no_redelivery_witness :
    1 ≤ 2 ∧
    (((consumerCycle c5consumer)^[2] c5initialState).log = [("p", "p", 2)] ∧
      groupPending ((consumerCycle c5consumer)^[2] c5initialState).broker "p" "p" = [2] ∧
      countOf ((consumerCycle c5consumer)^[2] c5initialState).counts "p" = 1) :=
  ⟨by decide, pipeline_no_redelivery 2 (by decide)⟩

/-! ## Consumer-wiring lemmas (claim C10) -/

theorem mem_aset {α β : Type} [BEq α] (k : α) (v : β) :
    ∀ (l : List (α × β)) (kv : α × β), kv ∈ aset k v l → kv = (k, v) ∨ kv ∈ l := by
  intro l
  induction l with
  | nil =>
    intro kv h
    simpa [aset] using h
  | cons hd tl ih =>
    intro kv h
    simp only [aset] at h
    split at h
    · rcases List.mem_cons.mp h with rfl | h2
      · exact Or.inl rfl
      · exact Or.inr (List.mem_cons_of_mem _ h2)
    · rcases List.mem_cons.mp h with rfl | h2
      · exact Or.inr (List.mem_cons_self _ _)
      · rcases ih kv h2 with h3 | h3
        · exact Or.inl h3
        · exact Or.inr (List.mem_cons_of_mem _ h3)

theorem keys_aset_self {α β : Type} [BEq α] [LawfulBEq α] (k : α) (v : β) :
    ∀ l : List (α × β), k ∈ (aset k v l).map Prod.fst := by
  intro l
  induction l with
  | nil => simp [aset]
  | cons hd tl ih =>
    simp only [aset]
    split
    · simp
    · simpa using Or.inr ih

theorem keys_aset_sub {α β : Type} [BEq α] [LawfulBEq α] (k x : α) (v : β)
    (l : List (α × β)) (h : x ∈ (aset k v l).map Prod.fst) :
    x = k ∨ x ∈ l.map Prod.fst := by
  obtain ⟨kv, hkv, rfl⟩ := List.mem_map.mp h
  rcases mem_aset k v l kv hkv with rfl | h2
  · exact Or.inl rfl
  · exact Or.inr (List.mem_map_of_mem _ h2)

theorem keys_sub_aset {α β : Type} [BEq α] [LawfulBEq α] (k x : α) (v : β) :
    ∀ l : List (α × β), x ∈ l.map Prod.fst → x ∈ (aset k v l).map Prod.fst := by
  intro l
  induction l with
  | nil =>
    intro h
    cases h
  | cons hd tl ih =>
    intro h
    obtain ⟨kv, hkv, rfl⟩ := List.mem_map.mp h
    rcases List.mem_cons.mp hkv with rfl | h2
    · simp only [aset]
      split
      · next hbeq =>
        have hk : kv.fst = k := by simpa using hbeq
        simp [hk]
      · exact List.mem_map_of_mem _ (List.mem_cons_self _ _)
    · simp only [aset]
      split
      · simp only [List.map_cons]
        exact List.mem_cons_of_mem _ (List.mem_map_of_mem _ h2)
      · simp only [List.map_cons]
        exact List.mem_cons_of_mem _ (ih (List.mem_map_of_mem _ h2))

theorem keys_aset_nodup {α β : Type} [BEq α] [LawfulBEq α] (k : α) (v : β) :
    ∀ l : List (α × β), (l.map Prod.fst).Nodup → ((aset k v l).map Prod.fst).Nodup := by
  intro l
  induction l with
  | nil =>
    intro _
    simp [aset]
  | cons hd tl ih =>
    intro h
    simp only [List.map_cons, List.nodup_cons] at h
    simp only [aset]
    split
    · next hbeq =>
      have hk : hd.fst = k := by simpa using hbeq
      simp only [List.map_cons, List.nodup_cons]
      exact ⟨hk ▸ h.1, h.2⟩
    · next hbeq =>
      have hk : ¬ hd.fst = k := by simpa using hbeq
      simp only [List.map_cons, List.nodup_cons]
      refine ⟨?_, ih h.2⟩
      intro hmem
      rcases keys_aset_sub k hd.fst v tl hmem with h2 | h2
      · exact hk h2
      · exact h.1 h2

theorem registerAll_inv (procs : List Processor) :
    ∀ (reg : List (String × Processor)),
      (∀ kv ∈ reg, kv.fst = kv.snd.name) →
      ∀ kv ∈ procs.foldl registerProcessor reg, kv.fst = kv.snd.name := by
  induction procs with
  | nil => intro reg h; exact h
  | cons q qs ih =>
    intro reg h
    refine ih (registerProcessor reg q) ?_
    intro kv hkv
    rcases mem_aset q.name q reg kv hkv with rfl | h2
    · rfl
    · exact h kv h2

theorem registerAll_keys_nodup (procs : List Processor) :
    ∀ (reg : List (String × Processor)),
      (reg.map Prod.fst).Nodup →
      ((procs.foldl registerProcessor reg).map Prod.fst).Nodup := by
  induction procs with
  | nil => intro reg h; exact h
  | cons q qs ih =>
    intro reg h
    exact ih (registerProcessor reg q) (keys_aset_nodup q.name q reg h)

theorem registerAll_keys_mono (procs : List Processor) :
    ∀ (reg : List (String × Processor)) (x : String),
      x ∈ reg.map Prod.fst →
      x ∈ (procs.foldl registerProcessor reg).map Prod.fst := by
  induction procs with
  | nil => intro reg x h; exact h
  | cons q qs ih =>
    intro reg x h
    exact ih (registerProcessor reg q) x (keys_sub_aset q.name x q reg h)

theorem registerAll_keys_mem (procs : List Processor) :
    ∀ (reg : List (String × Processor)) (p : Processor), p ∈ procs →
      p.name ∈ (procs.foldl registerProcessor reg).map Prod.fst := by
  induction procs with
  | nil =>
    intro reg p h
    cases h
  | cons q qs ih =>
    intro reg p h
    rcases List.mem_cons.mp h with rfl | h2
    · exact registerAll_keys_mono qs (registerProcessor reg p) p.name
        (keys_aset_self p.name p reg)
    · exact ih (registerProcessor reg q) p h2

theorem foldl_consumeOne_log (c : Consumer) :
    ∀ (l : List (Nat × StreamRecord)) (st : PipeState),
      (l.foldl (consumeOne c) st).log =
        st.log ++ l.map (fun em => (c.proc.name, c.stream, em.fst)) := by
  intro l
  induction l with
  | nil => intro st; simp
  | cons em tl ih =>
    intro st
    rw [List.foldl_cons, ih]
    simp [consumeOne]

theorem consumerCycle_log (c : Consumer) (st : PipeState) :
    (consumerCycle c st).log =
      st.log ++ (xreadgroup c.stream c.group 10 st.broker).fst.map
        (fun em => (c.proc.name, c.stream, em.fst)) := by
  simp only [consumerCycle]
  exact foldl_consumeOne_log c _ _

theorem xack_streams (s g : String) (eid : Nat) (b : Broker) :
    (xack s g eid b).streams = b.streams := by
  unfold xack
  split <;> rfl

theorem consumeOne_streams (c : Consumer) (st : PipeState) (em : Nat × StreamRecord) :
    (consumeOne c st em).broker.streams = st.broker.streams := by
  simp only [consumeOne]
  split
  · rw [xack_streams]
  · rfl

theorem foldl_consumeOne_streams (c : Consumer) :
    ∀ (l : List (Nat × StreamRecord)) (st : PipeState),
      (l.foldl (consumeOne c) st).broker.streams = st.broker.streams := by
  intro l
  induction l with
  | nil => intro st; rfl
  | cons em tl ih =>
    intro st
    rw [List.foldl_cons, ih, consumeOne_streams]

theorem xreadgroup_snd_streams (s g : String) (cnt : Nat) (b : Broker) :
    (xreadgroup s g cnt b).snd.streams = b.streams := by
  cases hl : b.streams.lookup s with
  | none => simp [xreadgroup, hl]
  | some sd =>
    cases hg : b.groups.lookup (s, g) with
    | none => simp [xreadgroup, hl, hg]
    | some gs =>
      simp only [xreadgroup, hl, hg]
      cases hlast : ((sd.entries.filter (fun e => gs.lastDelivered < e.fst)).take cnt).getLast? with
      | none => simp [hlast]
      | some lastE => simp [hlast]

theorem consumerCycle_streams (c : Consumer) (st : PipeState) :
    (consumerCycle c st).broker.streams = st.broker.streams := by
  simp only [consumerCycle]
  rw [foldl_consumeOne_streams]
  exact xreadgroup_snd_streams _ _ _ _

theorem lookup_aset_self {α β : Type} [BEq α] [LawfulBEq α] (k : α) (v : β) :
    ∀ l : List (α × β), (aset k v l).lookup k = some v := by
  intro l
  induction l with
  | nil => simp [aset, List.lookup]
  | cons hd tl ih =>
    simp only [aset]
    split
    · simp [List.lookup]
    · next hbeq =>
      have h1 : hd.fst ≠ k := by simpa using hbeq
      have hk : (k == hd.fst) = false := beq_eq_false_iff_ne.mpr (Ne.symm h1)
      simp [List.lookup, hk, ih]

theorem lookup_aset_ne {α β : Type} [BEq α] [LawfulBEq α] (k k2 : α) (v : β)
    (h : k2 ≠ k) :
    ∀ l : List (α × β), (aset k v l).lookup k2 = l.lookup k2 := by
  intro l
  have hk2k : (k2 == k) = false := beq_eq_false_iff_ne.mpr h
  induction l with
  | nil => simp [aset, List.lookup, hk2k]
  | cons hd tl ih =>
    simp only [aset]
    split
    · next hbeq =>
      have hdk : hd.fst = k := by simpa using hbeq
      have hk2hd : (k2 == hd.fst) = false := beq_eq_false_iff_ne.mpr (by rw [hdk]; exact h)
      simp [List.lookup, hk2k, hk2hd]
    · by_cases hc : (k2 == hd.fst) = true
      · simp [List.lookup, hc]
      · have hcf : (k2 == hd.fst) = false := eq_false_of_ne_true hc
        simp [List.lookup, hcf, ih]

theorem mem_streamEntries_xadd (s s2 : String) (r : StreamRecord) (b : Broker)
    (e : Nat × StreamRecord) (he : e ∈ streamEntries b s2) :
    e ∈ streamEntries (xadd s r b) s2 := by
  by_cases h : s2 = s
  · subst h
    simp only [streamEntries, xadd] at he ⊢
    rw [lookup_aset_self]
    cases hl : b.streams.lookup s2 with
    | none =>
      rw [hl] at he
      cases he
    | some sd =>
      rw [hl] at he
      simp only [hl, Option.getD_some]
      exact List.mem_append_left _ he
  · simp only [streamEntries, xadd]
    rw [lookup_aset_ne s s2 _ h]
    exact he

theorem mem_xreadgroup_entries (s g : String) (cnt : Nat) (b : Broker)
    (em : Nat × StreamRecord) (h : em ∈ (xreadgroup s g cnt b).fst) :
    em ∈ streamEntries b s := by
  cases hl : b.streams.lookup s with
  | none =>
    simp only [xreadgroup, hl] at h
    cases h
  | some sd =>
    cases hg : b.groups.lookup (s, g) with
    | none =>
      simp only [xreadgroup, hl, hg] at h
      cases h
    | some gs =>
      simp only [xreadgroup, hl, hg] at h
      cases hlast : ((sd.entries.filter (fun e => gs.lastDelivered < e.fst)).take cnt).getLast? with
      | none =>
        rw [hlast] at h
        cases h
      | some lastE =>
        rw [hlast] at h
        simp only at h
        have h1 : em ∈ sd.entries.filter (fun e => gs.lastDelivered < e.fst) :=
          List.take_subset _ _ h
        have h2 : em ∈ sd.entries := List.mem_of_mem_filter h1
        simp only [streamEntries, hl]
        exact h2

theorem streamEntries_eq_of_streams {b b2 : Broker} (h : b2.streams = b.streams)
    (s : String) : streamEntries b2 s = streamEntries b s := by
  simp [streamEntries, h]

/-- C10: registering processors then starting the pipeline spawns one
consumer per registered name, each reading the stream named after its
processor with a consumer group also named after it; in every run, every
Process invocation of a processor comes from the stream whose name equals
the processor name, on an entry of that stream. -/
theorem pipeline_consumer_wiring (procs : List Processor) (ops : List PipeOp) :
    (∀ kv ∈ registerAll procs, kv.fst = kv.snd.name) ∧
    (((startConsumers (registerAll procs)).map (fun c => c.stream)).Nodup) ∧
    (∀ p ∈ procs, ∃ c ∈ startConsumers (registerAll procs),
        c.stream = p.name ∧ c.group = p.name ∧ c.proc.name = p.name) ∧
    (∀ c ∈ startConsumers (registerAll procs),
        c.stream = c.proc.name ∧ c.group = c.proc.name) ∧
    (∀ e ∈ (runPipeline (startConsumers (registerAll procs)) ops).log,
        e.snd.fst = e.fst ∧
        ∃ rec, (e.snd.snd, rec) ∈
          streamEntries
            (runPipeline (startConsumers (registerAll procs)) ops).broker
            e.snd.fst) := by
  have hinv : ∀ kv ∈ registerAll procs, kv.fst = kv.snd.name :=
    registerAll_inv procs [] (by intro kv h; cases h)
  have hconsumers : ∀ c ∈ startConsumers (registerAll procs),
      c.stream = c.proc.name ∧ c.group = c.proc.name := by
    intro c hc
    obtain ⟨kv, hkv, rfl⟩ := List.mem_map.mp hc
    exact ⟨hinv kv hkv, rfl⟩
  refine ⟨hinv, ?_, ?_, hconsumers, ?_⟩
  · have hmapeq : (startConsumers (registerAll procs)).map (fun c => c.stream) =
        (registerAll procs).map Prod.fst := by
      simp [startConsumers, List.map_map]
    rw [hmapeq]
    exact registerAll_keys_nodup procs [] (by simp)
  · intro p hp
    have hkey := registerAll_keys_mem procs [] p hp
    obtain ⟨kv, hkv, hfst⟩ := List.mem_map.mp hkey
    refine ⟨⟨kv.fst, kv.snd.name, kv.snd⟩, List.mem_map_of_mem _ hkv, hfst, ?_, ?_⟩
    · show kv.snd.name = p.name
      rw [← hinv kv hkv]
      exact hfst
    · show kv.snd.name = p.name
      rw [← hinv kv hkv]
      exact hfst
  · have hstep : ∀ (st : PipeState) (op : PipeOp),
        (∀ e ∈ st.log, e.snd.fst = e.fst ∧ ∃ rec, (e.snd.snd, rec) ∈
            streamEntries st.broker e.snd.fst) →
        (∀ e ∈ (pipelineStep (startConsumers (registerAll procs)) st op).log,
            e.snd.fst = e.fst ∧ ∃ rec, (e.snd.snd, rec) ∈
              streamEntries (pipelineStep (startConsumers (registerAll procs)) st op).broker
                e.snd.fst) := by
      intro st op hst
      cases op with
      | publish s now m =>
        intro e he
        simp only [pipelineStep] at he ⊢
        obtain ⟨h1, rec, h2⟩ := hst e he
        exact ⟨h1, rec, mem_streamEntries_xadd s e.snd.fst _ _ _ h2⟩
      | cycle i =>
        simp only [pipelineStep]
        cases hci : (startConsumers (registerAll procs))[i]? with
        | none => exact hst
        | some c =>
          intro e he
          rw [consumerCycle_log] at he
          rcases List.mem_append.mp he with hold | hnew
          · obtain ⟨h1, rec, h2⟩ := hst e hold
            refine ⟨h1, rec, ?_⟩
            rw [streamEntries_eq_of_streams (consumerCycle_streams c st)]
            exact h2
          · obtain ⟨em, hem, rfl⟩ := List.mem_map.mp hnew
            have hcmem : c ∈ startConsumers (registerAll procs) :=
              List.getElem?_mem hci
            refine ⟨(hconsumers c hcmem).1, em.snd, ?_⟩
            rw [streamEntries_eq_of_streams (consumerCycle_streams c st)]
            have h3 : em ∈ streamEntries st.broker c.stream :=
              mem_xreadgroup_entries c.stream c.group 10 st.broker em hem
            simpa using h3
    have hrun : ∀ (ops2 : List PipeOp) (st : PipeState),
        (∀ e ∈ st.log, e.snd.fst = e.fst ∧ ∃ rec, (e.snd.snd, rec) ∈
            streamEntries st.broker e.snd.fst) →
        (∀ e ∈ (ops2.foldl (pipelineStep (startConsumers (registerAll procs))) st).log,
            e.snd.fst = e.fst ∧ ∃ rec, (e.snd.snd, rec) ∈
              streamEntries
                (ops2.foldl (pipelineStep (startConsumers (registerAll procs))) st).broker
                e.snd.fst) := by
      intro ops2
      induction ops2 with
      | nil => intro st h; exact h
      | cons op tl ih =>
        intro st h
        exact ih _ (hstep st op h)
    exact hrun ops _ (by intro e he; cases he)

/-- C1 amended, witnessed at a concrete interaction on the empty graph. -/
theorem recordWalletInteraction_twice_witness :
    ((⟨"tx1", "w1", "t1"⟩ : WalletInteraction).walletAddress ≠ "" ∧
      (⟨"tx1", "w1", "t1"⟩ : WalletInteraction).tokenAddress ≠ "") ∧
    (∃ w1 w2,
        (recordWalletInteraction (fun _ => none) emptyGraph
            ⟨"tx1", "w1", "t1"⟩).wallets "w1" = some w1 ∧
        (recordWalletInteraction (fun _ => none)
            (recordWalletInteraction (fun _ => none) emptyGraph ⟨"tx1", "w1", "t1"⟩)
            ⟨"tx1", "w1", "t1"⟩).wallets "w1" = some w2 ∧
        w2.trustScore = w1.trustScore ∧
        w2.interactions = w1.interactions ++ [mkInteractionId ⟨"tx1", "w1", "t1"⟩]) := by
  refine ⟨⟨by decide, by decide⟩, ?_⟩
  exact (recordWalletInteraction_twice (fun _ => none) emptyGraph ⟨"tx1", "w1", "t1"⟩
    (by decide) (by decide)).2.2.2.1

end CryptoOracle
